import Mathlib

/-!
Verification of the DNS zone synthesis and publication engine of
`management/dns_update.py` (Mail-in-a-Box).

The Python source is shallowly embedded: Python `str` becomes `String`
(compared and sliced through its `List Char` data, which matches CPython's
code-point semantics for the ASCII data handled here), Python tuples become
structures, Python dicts become association lists in insertion order, and the
external collaborators (shell calls producing the TLSA digest, SSHFP lines and
the OpenDKIM TXT record, the filesystem, and the clock) become explicit
parameters.  Every function is written to mirror its Python counterpart line
by line; deviations forced by the embedding are noted at each definition.
-/

/-! ### Python string primitives

Python compares strings lexicographically by code point; `endswith` is a
suffix test.  Core Lean `String` order is iterator-based and does not reduce
well in the kernel, so the Python operations are re-implemented directly on
the underlying character lists.
-/

/-- Python `a < b` on strings: lexicographic by code point, a proper prefix
sorts first. -/
def pyListLtChar : List Char → List Char → Bool
  | [], [] => false
  | [], _ :: _ => true
  | _ :: _, [] => false
  | a :: as, b :: bs =>
    if a.toNat < b.toNat then true
    else if b.toNat < a.toNat then false
    else pyListLtChar as bs

/-- Python `a < b` on strings. -/
def pyStrLt (a b : String) : Bool := pyListLtChar a.data b.data

/-- Python `a >= b` on strings (total order, so `a >= b` is `not (a < b)`). -/
def pyStrGe (a b : String) : Bool := ! pyStrLt a b

/-- Python `x.endswith("." + d)`, the subdomain test used throughout
`dns_update.py`. -/
def endswithDot (x d : String) : Bool := List.isSuffixOf ('.' :: d.data) x.data

/-- Python `min(strings)`: the first element minimal under `<`, folded from a
seed (the caller supplies the list head as seed, matching `min` on a
non-empty list). -/
def pyMinStr (seed : String) (l : List String) : String :=
  l.foldl (fun a b => if pyStrLt b a then b else a) seed

/-- Sort key relation used for Python `sorted(domains, key=lambda d: len(d))`:
compare by length. -/
def lenLE (a b : String) : Prop := a.length ≤ b.length

instance : DecidableRel lenLE := fun a b => Nat.decLe a.length b.length

instance : IsTotal String lenLE := ⟨fun a b => Nat.le_total a.length b.length⟩

instance : IsTrans String lenLE := ⟨fun _ _ _ => Nat.le_trans⟩

/-! ### `get_dns_zones` (dns_update.py lines 22-50)

The Python function walks the domain set in order of increasing length and
admits a domain as a zone apex unless an already-admitted apex is a proper
suffix of it.  The input set is modelled as a list; `sorted(..., key=len)` is
a stable length sort.  The trailing steps of the Python function (attaching
`safe_domain_name` zonefile names and reordering via the external
`sort_domains` collaborator) only rename and permute the admitted apexes, so
the embedding returns the admitted apex list itself.
-/

/-- One step of the admission loop of `get_dns_zones`: skip `d` if some
already-admitted apex is a proper suffix of it. -/
def zoneStep (acc : List String) (d : String) : List String :=
  if acc.any (fun z => endswithDot d z) then acc else acc ++ [d]

/-- `get_dns_zones` (lines 22-37): the admitted zone-apex set. -/
def get_dns_zones (domains : List String) : List String :=
  (List.insertionSort lenLE domains).foldl zoneStep []

/-! ### The custom override store (`custom.yaml`, dns_update.py lines 52-56
and 606-685)

Python stores, per qualified name, either a bare string (short form: an
implicit A record) or a dict from record type to value.  Python dicts are
modelled as association lists in insertion order with unique keys; `d[k]=v`
updates in place or appends, `del d[k]` removes the entry.  The
`ipaddress.ip_address` standard-library parser is an external collaborator
and is passed in as an oracle returning the IP version of a parsable literal
and `none` for an unparsable one (on which Python raises `ValueError`).
String literals in error and explanation texts avoid apostrophes; this does
not affect any compared value.
-/

/-- IP version reported by the `ipaddress.ip_address` oracle. -/
inductive IpV where
  | V4
  | V6
deriving DecidableEq, Repr

/-- A stored value of the custom override store. -/
inductive CustomValue where
  | short (v : String)
  | rmap (m : List (String × String))
deriving DecidableEq, Repr

/-- The custom override store: a Python dict from name to value. -/
abbrev CustomStore := List (String × CustomValue)

/-- Python dict lookup. -/
def assocFind {α : Type} : List (String × α) → String → Option α
  | [], _ => none
  | (k2, v) :: rest, k => if k2 == k then some v else assocFind rest k

/-- Python `d[k] = v`: update in place, or append a new entry. -/
def assocSet {α : Type} : List (String × α) → String → α → List (String × α)
  | [], k, v => [(k, v)]
  | (k2, v2) :: rest, k, v =>
    if k2 == k then (k, v) :: rest else (k2, v2) :: assocSet rest k v

/-- Python `del d[k]`. -/
def assocErase {α : Type} : List (String × α) → String → List (String × α)
  | [], _ => []
  | (k2, v2) :: rest, k =>
    if k2 == k then rest else (k2, v2) :: assocErase rest k

/-- Python `rtype.upper()` (ASCII case mapping, as used for DNS type names). -/
def pyUpper (s : String) : String := String.mk (s.data.map Char.toUpper)

/-- The store-update phase of `set_custom_dns_record` (lines 630-685),
reached after validation.  Returns Python's `changed` flag and the resulting
store; the caller persists the store exactly when the flag is true.
The comparisons of the stored value against the literal string `"value"`
(lines 655 and 675) reproduce the source text exactly. -/
def setCustomUpdate (config : CustomStore) (qname rtype : String)
    (value : Option String) : Bool × CustomStore :=
  match assocFind config qname with
  | none =>
    match value with
    | none => (false, config)
    | some v =>
      if rtype == "A" then (true, assocSet config qname (CustomValue.short v))
      else (true, assocSet config qname (CustomValue.rmap [(rtype, v)]))
  | some (CustomValue.short s) =>
    match value with
    | none =>
      if rtype == "A" then (true, assocErase config qname)
      else (false, config)
    | some v =>
      if rtype == "A" then
        if s == "value" then (false, config)
        else (true, assocSet config qname (CustomValue.short v))
      else (true, assocSet config qname (CustomValue.rmap [("A", s), (rtype, v)]))
  | some (CustomValue.rmap m) =>
    match value with
    | none =>
      match assocFind m rtype with
      | none => (false, config)
      | some _ =>
        let m2 := assocErase m rtype
        if m2.length == 0 then (true, assocErase config qname)
        else (true, assocSet config qname (CustomValue.rmap m2))
    | some v =>
      if assocFind m rtype == some "value" then (false, config)
      else (true, assocSet config qname (CustomValue.rmap (assocSet m rtype v)))

/-- `set_custom_dns_record` (lines 606-685): validation followed by the
store update.  An `Except.error` models a raised `ValueError`; in that case
nothing is written, matching the Python control flow where the raise happens
before the store is loaded or mutated. -/
def set_custom_dns_record (domains : List String) (qname rtypeRaw : String)
    (value : Option String) (parseIp : String → Option IpV)
    (config : CustomStore) : Except String (Bool × CustomStore) :=
  if (get_dns_zones domains).any
      (fun zone => qname == zone || endswithDot qname zone) then
    let rtype := pyUpper rtypeRaw
    match value with
    | some v =>
      if rtype == "A" || rtype == "AAAA" then
        match parseIp v with
        | none => Except.error "invalid IP address literal"
        | some IpV.V4 =>
          if rtype == "AAAA" then Except.error "That is an IPv4 address."
          else Except.ok (setCustomUpdate config qname rtype value)
        | some IpV.V6 =>
          if rtype == "A" then Except.error "That is an IPv6 address."
          else Except.ok (setCustomUpdate config qname rtype value)
      else if rtype == "CNAME" || rtype == "TXT" then
        Except.ok (setCustomUpdate config qname rtype value)
      else Except.error ("Unknown record type " ++ rtype ++ ".")
    | none => Except.ok (setCustomUpdate config qname rtype none)
  else
    Except.error (qname ++
      " is not a domain name or a subdomain of a domain name managed by this box.")

/-! ### `build_zone` (dns_update.py lines 134-234)

A record is the Python tuple `(qname, rtype, value, explanation)`; the
explanation is a string, or `False` (modelled `none`) for internal records.
External inputs of `build_zone` — `env` entries and the outputs of
`build_tlsa_record` (shell call hashing the TLS certificate),
`build_sshfp_records` (shell call scanning SSH host keys) and the parsed
OpenDKIM TXT record `(m.group(1), m.group(2)+m.group(3))` from
`mail/dkim/mail.txt` — are carried in a `DnsEnv`.  Explanation texts follow
the source with apostrophes and nested quotes dropped (no claim compares
those characters).  Python set iteration (line 222) is modelled by folding
over the extraction list in order: revisiting a qname is a no-op because the
first visit establishes the guarding `has_rec` conditions, so the appended
records coincide with a single visit per distinct qname.
-/

/-- Python record tuple `(qname, rtype, value, explanation)`. -/
structure DnsRecord where
  qname : Option String
  rtype : String
  rvalue : String
  explanation : Option String
deriving DecidableEq, Repr

/-- Environment and external-collaborator inputs of `build_zone`. -/
structure DnsEnv where
  primaryHostname : String
  publicIp : String
  publicIpv6 : Option String
  tlsa : String
  sshfp : List String
  dkimQname : String
  dkimValue : String
deriving DecidableEq, Repr

/-- Python truthiness of `env.get("PUBLIC_IPV6")`: key present with a
non-empty value. -/
def ipv6Truthy (env : DnsEnv) : Bool :=
  match env.publicIpv6 with
  | none => false
  | some s => ! (s == "")

/-- `env["PUBLIC_IPV6"]` where the caller has established truthiness. -/
def ipv6Val (env : DnsEnv) : String := env.publicIpv6.getD ""

/-- Python whitespace test for `str.strip()`. -/
def isPySpace (c : Char) : Bool :=
  c == ' ' || c == '\t' || c == '\n' || c == '\r' || c == '\x0b' || c == '\x0c'

/-- Python `s.strip()`. -/
def pyStrip (s : String) : String :=
  String.mk (((s.data.dropWhile isPySpace).reverse.dropWhile isPySpace).reverse)

/-- `has_rec` (lines 187-191) against an explicit record list; `pre` is the
optional `startswith` filter. -/
def has_rec (records : List DnsRecord) (qname : Option String) (rtype : String)
    (pre : Option String) : Bool :=
  records.any (fun r =>
    r.qname == qname && r.rtype == rtype &&
      (match pre with
       | none => true
       | some p => List.isPrefixOf p.data r.rvalue.data))

/-- Python `qname[0:len(qname)-len("." + domain)]` (lines 178 and 248). -/
def stripDotSuffix (qname domain : String) : String :=
  String.mk (qname.data.take (qname.data.length - (domain.data.length + 1)))

/-- The `local` sentinel resolution of lines 265-273, for one `(rtype,
value)` pair at shortened qname `q`. -/
def resolveCustom (env : DnsEnv) (q : Option String) (rv : String × String) :
    Option (Option String × String × String) :=
  if rv.1 == "A" && rv.2 == "local" then some (q, rv.1, env.publicIp)
  else if rv.1 == "AAAA" && rv.2 == "local" then
    match env.publicIpv6 with
    | none => none
    | some ip6 => some (q, rv.1, ip6)
  else some (q, rv.1, rv.2)

/-- The custom records contributed by one store entry (one iteration of the
loop at line 239). -/
def entryCustoms (domain : String) (env : DnsEnv)
    (entry : String × CustomValue) : List (Option String × String × String) :=
  if ! (entry.1 == domain || endswithDot entry.1 domain) then []
  else
    let q : Option String :=
      if entry.1 == domain then none else some (stripDotSuffix entry.1 domain)
    let values : List (String × String) :=
      match entry.2 with
      | CustomValue.short v =>
        if v == "local" && ipv6Truthy env then [("A", v), ("AAAA", v)]
        else [("A", v)]
      | CustomValue.rmap m => m
    values.filterMap (resolveCustom env q)

/-- `get_custom_records` (lines 238-273): filter the override store to the
domain and its subdomains, shorten qnames, expand the short form, and
resolve the `local` sentinel against the box addresses. -/
def get_custom_records (domain : String) (additional : CustomStore)
    (env : DnsEnv) : List (Option String × String × String) :=
  additional.flatMap (entryCustoms domain env)

/-! Explanation texts (deviations: apostrophes and nested quotes dropped). -/

def tlsaExplanation : String :=
  "Recommended when DNSSEC is enabled. Advertises to mail servers connecting to the box that mandatory encryption should be used."

def sshfpExplanation : String :=
  "Optional. Provides an out-of-band method for verifying an SSH key before connecting. Use VerifyHostKeyDNS yes (or VerifyHostKeyDNS ask) when connecting with ssh."

def mxExplanation (domain : String) : String :=
  "Required. Specifies the hostname (and priority) of the machine that handles @" ++ domain ++ " mail."

def spfExplanation (domain : String) : String :=
  "Recommended. Specifies that only the box is permitted to send @" ++ domain ++ " mail."

def userSetExplanation : String := "(Set by user.)"

def defaultApexAExplanation (domain : String) : String :=
  "Required. May have a different value. Sets the IP address that " ++ domain ++ " resolves to for web hosting and other services besides mail. The A record must be present but its value does not affect mail delivery."

def defaultWwwAExplanation (domain : String) : String :=
  "Optional. Sets the IP address that www." ++ domain ++ " resolves to, e.g. for web hosting."

def defaultApexAaaaExplanation (domain : String) : String :=
  "Optional. Sets the IPv6 address that " ++ domain ++ " resolves to, e.g. for web hosting. (It is not necessary for receiving mail on this domain.)"

def defaultWwwAaaaExplanation (domain : String) : String :=
  "Optional. Sets the IPv6 address that www." ++ domain ++ " resolves to, e.g. for web hosting."

def dkimExplanation (domain : String) : String :=
  "Recommended. Provides a way for recipients to verify that this machine sent @" ++ domain ++ " mail."

def dmarcExplanation (domain : String) : String :=
  "Optional. Specifies that mail that does not originate from the box but claims to be from @" ++ domain ++ " is suspect and should be quarantined by the recipient mail system."

def spfBackstopExplanation : String :=
  "Prevents unauthorized use of this domain name for outbound mail by requiring outbound mail to originate from the indicated host(s)."

def dmarcBackstopExplanation : String :=
  "Prevents unauthorized use of this domain name for outbound mail by requiring a valid DKIM signature."

/-- Lines 140-172: NS records for true apexes, the PRIMARY_HOSTNAME block
(ns glue, apex address records, TLSA, SSHFP), and the MX and SPF records. -/
def baseRecords (domain : String) (env : DnsEnv) (is_zone : Bool) :
    List DnsRecord :=
  (if is_zone then
    [⟨none, "NS", "ns1." ++ env.primaryHostname ++ ".", none⟩,
     ⟨none, "NS", "ns2." ++ env.primaryHostname ++ ".", none⟩]
   else []) ++
  (if domain == env.primaryHostname then
    [⟨some "ns1", "A", env.publicIp, none⟩,
     ⟨some "ns2", "A", env.publicIp, none⟩] ++
    (if ipv6Truthy env then
      [⟨some "ns1", "AAAA", ipv6Val env, none⟩,
       ⟨some "ns2", "AAAA", ipv6Val env, none⟩]
     else []) ++
    [⟨none, "A", env.publicIp, some "Required. Sets the IP address of the box."⟩] ++
    (if ipv6Truthy env then
      [⟨none, "AAAA", ipv6Val env, some "Required. Sets the IPv6 address of the box."⟩]
     else []) ++
    [⟨some "_25._tcp", "TLSA", env.tlsa, some tlsaExplanation⟩] ++
    env.sshfp.map (fun v => ⟨none, "SSHFP", v, some sshfpExplanation⟩)
   else []) ++
  [⟨none, "MX", "10 " ++ env.primaryHostname ++ ".", some (mxExplanation domain)⟩,
   ⟨none, "TXT", "v=spf1 mx -all", some (spfExplanation domain)⟩]

/-- One iteration of the user-override loop (lines 194-196). -/
def customStep (recs : List DnsRecord) (c : Option String × String × String) :
    List DnsRecord :=
  if has_rec recs c.1 c.2.1 none then recs
  else recs ++ [⟨c.1, c.2.1, c.2.2, some userSetExplanation⟩]

/-- Lines 193-196: append the user overrides that do not collide with an
already-present `(qname, rtype)`. -/
def applyCustomRecords (records : List DnsRecord)
    (customs : List (Option String × String × String)) : List DnsRecord :=
  customs.foldl customStep records

/-- The `defaults` table of lines 199-204. -/
def zoneDefaults (domain : String) (env : DnsEnv) :
    List (Option String × String × Option String × String) :=
  [(none, "A", some env.publicIp, defaultApexAExplanation domain),
   (some "www", "A", some env.publicIp, defaultWwwAExplanation domain),
   (none, "AAAA", env.publicIpv6, defaultApexAaaaExplanation domain),
   (some "www", "AAAA", env.publicIpv6, defaultWwwAaaaExplanation domain)]

/-- One iteration of the defaults loop (lines 205-209). -/
def defaultStep (is_zone : Bool) (recs : List DnsRecord)
    (d : Option String × String × Option String × String) : List DnsRecord :=
  match d.2.2.1 with
  | none => recs
  | some v =>
    if pyStrip v == "" then recs
    else if !is_zone && d.1 == some "www" then recs
    else if has_rec recs d.1 d.2.1 none then recs
    else recs ++ [⟨d.1, d.2.1, v, some d.2.2.2⟩]

/-- Lines 198-209: fill the defaults not already present. -/
def applyDefaults (records : List DnsRecord) (domain : String) (env : DnsEnv)
    (is_zone : Bool) : List DnsRecord :=
  (zoneDefaults domain env).foldl (defaultStep is_zone) records

/-- Line 226: the `_dmarc` qname for a resolvable qname. -/
def dmarcQname (q : Option String) : String :=
  "_dmarc" ++ (match q with | none => "" | some s => "." ++ s)

/-- Lines 223-228: one iteration of the strict-policy backstop loop. -/
def backstopStep (recs : List DnsRecord) (q : Option String) :
    List DnsRecord :=
  let recs2 :=
    if has_rec recs q "TXT" (some "v=spf1 ") then recs
    else recs ++ [⟨q, "TXT", "v=spf1 a mx -all", some spfBackstopExplanation⟩]
  if has_rec recs2 (some (dmarcQname q)) "TXT" (some "v=DMARC1; ") then recs2
  else recs2 ++
    [⟨some (dmarcQname q), "TXT", "v=DMARC1; p=reject", some dmarcBackstopExplanation⟩]

/-- Line 222: the qnames carrying an A or AAAA record (the extraction list
underlying `all_resolvable_qnames`). -/
def resolvableQnames (records : List DnsRecord) : List (Option String) :=
  records.filterMap (fun r =>
    if r.rtype == "A" || r.rtype == "AAAA" then some r.qname else none)

/-- Lines 221-229: the strict-policy backstop pass. -/
def addBackstops (records : List DnsRecord) : List DnsRecord :=
  (resolvableQnames records).foldl backstopStep records

/-- Python `qname.split(".")` on the character list. -/
def splitDotAux : List Char → List Char → List (List Char)
  | [], acc => [acc.reverse]
  | c :: r, acc =>
    if c == '.' then acc.reverse :: splitDotAux r [] else splitDotAux r (c :: acc)

/-- Line 232 sort key: `list(reversed(qname.split(".")))` for a named
record, `list("") = []` for an apex record. -/
def sortKey (r : DnsRecord) : List (List Char) :=
  match r.qname with
  | none => []
  | some s => (splitDotAux s.data []).reverse

/-- Python `<` on lists of strings (used by `list.sort` on the keys). -/
def pyKeyLt : List (List Char) → List (List Char) → Bool
  | [], [] => false
  | [], _ :: _ => true
  | _ :: _, [] => false
  | a :: as, b :: bs =>
    if pyListLtChar a b then true
    else if pyListLtChar b a then false
    else pyKeyLt as bs

/-- The stable-sort relation of line 232. -/
def recKeyLE (r₁ r₂ : DnsRecord) : Prop := pyKeyLt (sortKey r₂) (sortKey r₁) = false

instance : DecidableRel recKeyLE := fun r₁ r₂ =>
  instDecidableEqBool (pyKeyLt (sortKey r₂) (sortKey r₁)) false

/-- Line 232: `records.sort(key=...)` as a stable insertion sort. -/
def sortRecords (records : List DnsRecord) : List DnsRecord :=
  List.insertionSort recKeyLE records

/-- Lines 180-185: requalify a folded subzone record by the subdomain
label. -/
def requalify (subq : String) (subzone : List DnsRecord) : List DnsRecord :=
  subzone.map (fun r =>
    ⟨some (match r.qname with
           | none => subq
           | some cq => cq ++ "." ++ subq),
     r.rtype, r.rvalue, r.explanation⟩)

/-- Lines 134-219 with the spliced subzone records supplied: everything of
`build_zone` before the strict-policy backstop pass and the sort. -/
def buildZonePre (domain : String) (additional : CustomStore) (env : DnsEnv)
    (is_zone : Bool) (subRecords : List DnsRecord) : List DnsRecord :=
  applyDefaults
    (applyCustomRecords (baseRecords domain env is_zone ++ subRecords)
      (get_custom_records domain additional env))
    domain env is_zone
  ++ [⟨some env.dkimQname, "TXT", env.dkimValue, some (dkimExplanation domain)⟩]
  ++ [⟨some "_dmarc", "TXT", "v=DMARC1; p=quarantine", some (dmarcExplanation domain)⟩]

/-- The full `build_zone` pipeline given the spliced subzone records. -/
def buildZoneFrom (domain : String) (additional : CustomStore) (env : DnsEnv)
    (is_zone : Bool) (subRecords : List DnsRecord) : List DnsRecord :=
  sortRecords (addBackstops (buildZonePre domain additional env is_zone subRecords))

/-- Lines 174-185: records of every strict subdomain of `domain`, built by
the recursive call `build_zone(subdomain, [], {}, env, is_zone=False)` and
requalified.  The recursive call passes an empty domain list, so it never
recurses further; it is therefore written as `buildZoneFrom ... []`, which
equals `build_zone subdomain [] [] env false` definitionally (see
`build_zone_leaf_eq`). -/
def subSplice (domain : String) (all_domains : List String) (env : DnsEnv) :
    List DnsRecord :=
  (all_domains.filter (fun d => endswithDot d domain)).flatMap
    (fun subdomain =>
      requalify (stripDotSuffix subdomain domain)
        (buildZoneFrom subdomain [] env false []))

/-- The record list of `build_zone` before the backstop pass and sort. -/
def build_zone_pre (domain : String) (all_domains : List String)
    (additional : CustomStore) (env : DnsEnv) (is_zone : Bool) :
    List DnsRecord :=
  buildZonePre domain additional env is_zone (subSplice domain all_domains env)

/-- `build_zone` (lines 134-234). -/
def build_zone (domain : String) (all_domains : List String)
    (additional : CustomStore) (env : DnsEnv) (is_zone : Bool) :
    List DnsRecord :=
  sortRecords (addBackstops (build_zone_pre domain all_domains additional env is_zone))

/-! Facts about the strict-policy backstop pass. -/

/-- The backstop SPF record appended at line 225. -/
def spfBackstopRec (q : Option String) : DnsRecord :=
  ⟨q, "TXT", "v=spf1 a mx -all", some spfBackstopExplanation⟩

/-- The backstop DMARC record appended at line 228. -/
def dmarcBackstopRec (dq : String) : DnsRecord :=
  ⟨some dq, "TXT", "v=DMARC1; p=reject", some dmarcBackstopExplanation⟩

/-- The value of the first apex-A entry of a custom record list. -/
def firstApexA (customs : List (Option String × String × String)) :
    Option String :=
  (customs.find? (fun c => c.1 == none && c.2.1 == "A")).map (fun c => c.2.2)

/-- The apex A override of a domain as stored: the short-form string, or the
`A` entry of the mapping form. -/
def lookupApexA (additional : CustomStore) (domain : String) : Option String :=
  match assocFind additional domain with
  | some (CustomValue.short v) => some v
  | some (CustomValue.rmap m) => assocFind m "A"
  | none => none

/-! ### `write_nsd_zone` (dns_update.py lines 337-436)

External collaborators are explicit parameters: the contents of the zone
file and its `.signed` sibling (`none` when `os.path.exists` is false) and
the clock (`datetime.datetime.now()` as a broken-down time plus its
microsecond field).  The regular expressions of lines 392 and 411 are
implemented directly; their character classes are disjoint from the
neighbouring pattern pieces, so the greedy left-to-right interpretation
used here is exactly the regex semantics.  `\d` and `\s` are the ASCII
classes, which is what zone-file bytes contain. -/

structure PyDateTime where
  year : Nat
  month : Nat
  day : Nat
  hour : Nat
  minute : Nat
  second : Nat
deriving DecidableEq, Repr

def isLeap (y : Nat) : Bool := y % 4 == 0 && (y % 100 != 0 || y % 400 == 0)

def daysInMonth (y m : Nat) : Nat :=
  if m == 2 then (if isLeap y then 29 else 28)
  else if m == 4 || m == 6 || m == 9 || m == 11 then 30
  else 31

/-- Days from 1970-01-01 of a civil date (Hinnant days-from-civil), giving
the `datetime` subtraction of line 400 an explicit meaning. -/
def civilToDays (y m d : Nat) : Int :=
  let y2 := if m ≤ 2 then y - 1 else y
  let era := y2 / 400
  let yoe := y2 % 400
  let mp := (m + 9) % 12
  let doy := (153 * mp + 2) / 5 + d - 1
  let doe := yoe * 365 + yoe / 4 - yoe / 100 + doy
  ((era * 146097 + doe : Nat) : Int) - 719468

def epochSec (t : PyDateTime) : Int :=
  civilToDays t.year t.month t.day * 86400
    + ((t.hour * 3600 + t.minute * 60 + t.second : Nat) : Int)

/-- Python `int` on a string of decimal digits (a regex `\d+` group). -/
def parseNatL (l : List Char) : Nat :=
  l.foldl (fun a c => a * 10 + (c.toNat - 48)) 0

def natDigitsAux : Nat → Nat → List Char
  | 0, _ => []
  | fuel+1, n =>
    if n < 10 then [Char.ofNat (48 + n)]
    else natDigitsAux fuel (n / 10) ++ [Char.ofNat (48 + n % 10)]

/-- Python `str` on a non-negative integer (line 428). -/
def natToString (n : Nat) : String := String.mk (natDigitsAux (n + 1) n)

/-- `strftime` zero padding (to 4 for %Y, to 2 for %m and %d). -/
def padZeros (k : Nat) (s : String) : String :=
  String.mk (List.replicate (k - s.data.length) '0' ++ s.data)

/-- `datetime.datetime.now().strftime("%Y%m%d00")` (line 405). -/
def dateSerial (t : PyDateTime) : String :=
  padZeros 4 (natToString t.year) ++ padZeros 2 (natToString t.month)
    ++ padZeros 2 (natToString t.day) ++ "00"

/-- The fields `strptime(s, "%Y%m%d%H%M%S")` slices out of a 14-digit
string. -/
def parseTs (s : String) : PyDateTime :=
  ⟨parseNatL (s.data.take 4), parseNatL ((s.data.drop 4).take 2),
   parseNatL ((s.data.drop 6).take 2), parseNatL ((s.data.drop 8).take 2),
   parseNatL ((s.data.drop 10).take 2), parseNatL ((s.data.drop 12).take 2)⟩

/-- ASCII digit test (regex `\d` over zone-file bytes). -/
def pyIsDigit (c : Char) : Bool :=
  decide (48 ≤ c.toNat) && decide (c.toNat ≤ 57)

/-- Whether `strptime(s, "%Y%m%d%H%M%S")` succeeds: fourteen digits
forming a valid calendar date-time (`datetime` requires year at least 1,
and seconds at most 59). -/
def validTs (s : String) : Bool :=
  decide (s.data.length = 14) && s.data.all pyIsDigit &&
  (let t := parseTs s
   decide (1 ≤ t.year) && decide (1 ≤ t.month) && decide (t.month ≤ 12) &&
   decide (1 ≤ t.day) && decide (t.day ≤ daysInMonth t.year t.month) &&
   decide (t.hour ≤ 23) && decide (t.minute ≤ 59) && decide (t.second ≤ 59))

/-- One-or-more matcher for a character class (greedy regex `+`): the
consumed run and the remainder. -/
def takeWhile1 (p : Char → Bool) : List Char → Option (List Char × List Char)
  | [] => none
  | c :: r => if p c then some (c :: r.takeWhile p, r.dropWhile p) else none

/-- Exactly-n matcher for a character class. -/
def takeExact : Nat → (Char → Bool) → List Char → Option (List Char × List Char)
  | 0, _, l => some ([], l)
  | _+1, _, [] => none
  | n+1, p, c :: r =>
    if p c then (takeExact n p r).map (fun q => (c :: q.1, q.2)) else none

/-- Literal matcher: consume `lit` from the front of the input. -/
def dropLit : List Char → List Char → Option (List Char)
  | [], l => some l
  | _ :: _, [] => none
  | c :: cs, x :: xs => if x == c then dropLit cs xs else none

/-- Match `\sRRSIG\s+SOA\s+\d+\s+\d+\s\d+\s+(\d{14})` (line 392) at the
head of the input; returns the capture and the remainder after the whole
match. -/
def matchRRSIGAt : List Char → Option (List Char × List Char)
  | [] => none
  | c :: r =>
    if isPySpace c then
      (dropLit "RRSIG".data r).bind (fun r1 =>
      (takeWhile1 isPySpace r1).bind (fun p2 =>
      (dropLit "SOA".data p2.2).bind (fun r3 =>
      (takeWhile1 isPySpace r3).bind (fun p4 =>
      (takeWhile1 pyIsDigit p4.2).bind (fun p5 =>
      (takeWhile1 isPySpace p5.2).bind (fun p6 =>
      (takeWhile1 pyIsDigit p6.2).bind (fun p7 =>
      match p7.2 with
      | [] => none
      | c2 :: r8 =>
        if isPySpace c2 then
          (takeWhile1 pyIsDigit r8).bind (fun p9 =>
          (takeWhile1 isPySpace p9.2).bind (fun p10 =>
          takeExact 14 pyIsDigit p10.2))
        else none)))))))
    else none

/-- `re.findall` for the RRSIG pattern: scan left to right, collect each
capture, resume after the matched text. -/
def rrsigFindAux : Nat → List Char → List String
  | 0, _ => []
  | _+1, [] => []
  | fuel+1, c :: r =>
    match matchRRSIGAt (c :: r) with
    | some (cap, rest) => String.mk cap :: rrsigFindAux fuel rest
    | none => rrsigFindAux fuel r

def rrsigFindall (s : String) : List String := rrsigFindAux s.data.length s.data

/-- Match `(\d+)\s*;\s*serial number` (line 411) at the head of the input;
returns group 1 and group 0. -/
def matchSerialAt (l : List Char) : Option (List Char × List Char) :=
  (takeWhile1 pyIsDigit l).bind (fun p1 =>
    let sp1 := p1.2.takeWhile isPySpace
    let r2 := p1.2.dropWhile isPySpace
    match r2 with
    | [] => none
    | c :: r3 =>
      if c == ';' then
        let sp2 := r3.takeWhile isPySpace
        let r4 := r3.dropWhile isPySpace
        match dropLit "serial number".data r4 with
        | none => none
        | some _ =>
          some (p1.1, p1.1 ++ sp1 ++ ';' :: sp2 ++ "serial number".data)
      else none)

/-- `re.search` for the serial pattern: the leftmost match. -/
def findSerialAux : Nat → List Char → Option (List Char × List Char)
  | 0, _ => none
  | _+1, [] => none
  | fuel+1, c :: r =>
    match matchSerialAt (c :: r) with
    | some g => some g
    | none => findSerialAux fuel r

def findSerial (s : String) : Option (String × String) :=
  (findSerialAux s.data.length s.data).map
    (fun g => (String.mk g.1, String.mk g.2))

/-- Python `str.replace`: replace every non-overlapping occurrence, left
to right (the needle is never empty in this program). -/
def replaceLAux : Nat → List Char → List Char → List Char → List Char
  | 0, _, _, l => l
  | _+1, _, _, [] => []
  | fuel+1, old, new, c :: r =>
    if List.isPrefixOf old (c :: r) then
      new ++ replaceLAux fuel old new ((c :: r).drop old.length)
    else c :: replaceLAux fuel old new r

def pyReplace (s old new : String) : String :=
  String.mk (replaceLAux s.data.length old.data new.data s.data)

/-- One record line of the zone file (lines 366-374): TXT values have
backslashes doubled, quotes escaped, and are wrapped in quotes. -/
def renderRecord (r : DnsRecord) : String :=
  (match r.qname with | none => "" | some s => s)
    ++ "\tIN\t" ++ r.rtype ++ "\t"
    ++ (if r.rtype == "TXT" then
          "\"" ++ pyReplace (pyReplace r.rvalue "\\" "\\\\") "\"" "\\\"" ++ "\""
        else r.rvalue)
    ++ "\n"

/-- Lines 349-363: the zone file header, serial still the placeholder. -/
def zoneTemplate (domain primary_domain : String) : String :=
  "\n$ORIGIN " ++ domain
    ++ ".\n$TTL 1800           ; default time to live\n\n@ IN SOA ns1."
    ++ primary_domain ++ ". hostmaster." ++ primary_domain
    ++ ". (\n           __SERIAL__     ; serial number\n           7200     ; Refresh (secondary nameserver update interval)\n           1800     ; Retry (when refresh fails, how often to try again)\n           1209600  ; Expire (when refresh fails, how long secondary nameserver will keep records around anyway)\n           1800     ; Negative TTL (how long negative responses are cached)\n           )\n"

/-- Lines 349-374: the canonical zone text with the serial placeholder. -/
def renderZoneText (domain primary_domain : String)
    (records : List DnsRecord) : String :=
  records.foldl (fun acc r => acc ++ renderRecord r)
    (zoneTemplate domain primary_domain)

/-- Lines 423-428: the serial choice when a previous serial exists.  The
comparison `existing_serial >= serial` is Python string comparison. -/
def chooseSerial (existing_serial serial : String) : String :=
  if pyStrGe existing_serial serial
  then natToString (parseNatL existing_serial.data + 1)
  else serial

/-- `write_nsd_zone` (lines 337-436).  `signedContent` is the content of
`zonefile + ".signed"` when that file exists, `existingZone` the content
of `zonefile` when it exists.  The result pairs the returned flag with the
contents written to `zonefile` (`none` when the function returns without
writing).  `Except.error` is the `ValueError` that `strptime` raises on a
fourteen-digit capture that is not a valid date-time. -/
def write_nsd_zone (domain primary : String) (records : List DnsRecord)
    (signedContent existingZone : Option String)
    (now : PyDateTime) (nowUsec : Nat) (force : Bool) :
    Except String (Bool × Option String) :=
  let zone := renderZoneText domain primary records
  let fbE : Except String Bool :=
    match signedContent with
    | none => Except.ok true
    | some sc =>
      match rrsigFindall sc with
      | [] => Except.ok true
      | t :: ts =>
        let e := pyMinStr t ts
        if validTs e then
          Except.ok (decide (epochSec (parseTs e) * 1000000 <
            epochSec now * 1000000 + (nowUsec : Int) + 259200000000))
        else Except.error "time data does not match format"
  match fbE with
  | Except.error msg => Except.error msg
  | Except.ok force_bump =>
    let serial := dateSerial now
    match existingZone with
    | none => Except.ok (true, some (pyReplace zone "__SERIAL__" serial))
    | some existing_zone =>
      match findSerial existing_zone with
      | none => Except.ok (true, some (pyReplace zone "__SERIAL__" serial))
      | some (existing_serial, g0) =>
        let existing2 :=
          pyReplace existing_zone g0 "__SERIAL__     ; serial number"
        if zone == existing2 && !force_bump && !force then
          Except.ok (false, none)
        else
          Except.ok (true, some (pyReplace zone "__SERIAL__"
            (chooseSerial existing_serial serial)))

set_option maxRecDepth 100000

/-! Basic facts about the subdomain test. -/

theorem endswithDot_length {x d : String} (h : endswithDot x d = true) :
    d.length < x.length := by
  have hs : ('.' :: d.data) <:+ x.data := by
    simpa [endswithDot, List.isSuffixOf_iff_suffix] using h
  have := hs.length_le
  simp only [List.length_cons] at this
  have hd : String.length d = d.data.length := rfl
  have hx : String.length x = x.data.length := rfl
  omega

theorem endswithDot_irrefl (x : String) : endswithDot x x = false := by
  cases h : endswithDot x x with
  | false => rfl
  | true => exact absurd (endswithDot_length h) (lt_irrefl _)

theorem prefix_of_prefix_len_le {α : Type} {x p₁ p₂ : List α}
    (h₁ : p₁ <+: x) (h₂ : p₂ <+: x) (h : p₁.length ≤ p₂.length) : p₁ <+: p₂ := by
  have e₁ : p₁ = x.take p₁.length := List.prefix_iff_eq_take.mp h₁
  have e₂ : p₂ = x.take p₂.length := List.prefix_iff_eq_take.mp h₂
  have : p₁ = p₂.take p₁.length := by
    rw [e₂, List.take_take, Nat.min_eq_left h, ← e₁]
  rw [this]
  exact List.take_prefix _ _

theorem suffix_of_suffix_len_le {α : Type} {x s₁ s₂ : List α}
    (h₁ : s₁ <:+ x) (h₂ : s₂ <:+ x) (h : s₁.length ≤ s₂.length) : s₁ <:+ s₂ := by
  rw [← List.reverse_prefix] at h₁ h₂ ⊢
  exact prefix_of_prefix_len_le h₁ h₂ (by simpa using h)

theorem endswithDot_suffix_trans {x b₁ b₂ : String}
    (h₁ : endswithDot x b₁ = true) (h₂ : endswithDot x b₂ = true)
    (hlen : b₁.length < b₂.length) : endswithDot b₂ b₁ = true := by
  have hs₁ : ('.' :: b₁.data) <:+ x.data := by
    simpa [endswithDot, List.isSuffixOf_iff_suffix] using h₁
  have hs₂ : ('.' :: b₂.data) <:+ x.data := by
    simpa [endswithDot, List.isSuffixOf_iff_suffix] using h₂
  have hlen' : b₁.data.length < b₂.data.length := hlen
  have hsub : ('.' :: b₁.data) <:+ ('.' :: b₂.data) :=
    suffix_of_suffix_len_le hs₁ hs₂ (by simp; omega)
  obtain ⟨m, hm⟩ := hsub
  cases m with
  | nil =>
    exfalso
    have := congrArg List.length hm
    simp only [List.nil_append, List.length_cons] at this
    omega
  | cons c m =>
    have hm' : m ++ '.' :: b₁.data = b₂.data := by
      have h0 : c :: (m ++ '.' :: b₁.data) = '.' :: b₂.data := by simpa using hm
      injection h0 with _ h2
    have : ('.' :: b₁.data) <:+ b₂.data := ⟨m, hm'⟩
    simpa [endswithDot, List.isSuffixOf_iff_suffix] using this

theorem endswithDot_suffix_eq {x b₁ b₂ : String}
    (h₁ : endswithDot x b₁ = true) (h₂ : endswithDot x b₂ = true)
    (hlen : b₁.length = b₂.length) : b₁ = b₂ := by
  have hs₁ : ('.' :: b₁.data) <:+ x.data := by
    simpa [endswithDot, List.isSuffixOf_iff_suffix] using h₁
  have hs₂ : ('.' :: b₂.data) <:+ x.data := by
    simpa [endswithDot, List.isSuffixOf_iff_suffix] using h₂
  obtain ⟨t₁, ht₁⟩ := hs₁
  obtain ⟨t₂, ht₂⟩ := hs₂
  have hx : t₁ ++ '.' :: b₁.data = t₂ ++ '.' :: b₂.data := by rw [ht₁, ht₂]
  have hlen' : t₁.length = t₂.length := by
    have := congrArg List.length hx
    have hb : b₁.data.length = b₂.data.length := hlen
    simp only [List.length_append, List.length_cons] at this
    omega
  have h2 := (List.append_inj hx hlen').2
  have hdata : b₁.data = b₂.data := by injection h2
  cases b₁; cases b₂
  exact congrArg String.mk hdata

/-! Facts about the admission fold of `get_dns_zones`. -/

theorem zoneStep_pos {acc : List String} {d : String}
    (h : acc.any (fun z => endswithDot d z) = true) : zoneStep acc d = acc := by
  simp only [zoneStep, if_pos h]

theorem zoneStep_neg {acc : List String} {d : String}
    (h : ¬ acc.any (fun z => endswithDot d z) = true) :
    zoneStep acc d = acc ++ [d] := by
  simp only [zoneStep, if_neg h]

theorem zoneFold_extends (l : List String) (acc : List String) :
    ∃ t, l.foldl zoneStep acc = acc ++ t := by
  induction l generalizing acc with
  | nil => exact ⟨[], by simp⟩
  | cons d l ih =>
    simp only [List.foldl_cons]
    by_cases h : acc.any (fun z => endswithDot d z) = true
    · rw [zoneStep_pos h]
      exact ih acc
    · rw [zoneStep_neg h]
      obtain ⟨t, ht⟩ := ih (acc ++ [d])
      exact ⟨d :: t, by rw [ht]; simp⟩

theorem mem_zoneFold_of_mem_acc (l : List String) (acc : List String)
    {a : String} (ha : a ∈ acc) : a ∈ l.foldl zoneStep acc := by
  obtain ⟨t, ht⟩ := zoneFold_extends l acc
  rw [ht]
  exact List.mem_append_left _ ha

/-- Main invariant of the admission fold: starting from an accumulator whose
members are pairwise suffix-free and no longer than anything still to be
processed, the fold yields a pairwise suffix-free list that contains or
covers every processed domain. -/
theorem zoneFold_inv (l : List String) (acc : List String)
    (hsort : ∀ z ∈ acc, ∀ r ∈ l, z.length ≤ r.length)
    (hl : l.Pairwise lenLE)
    (hpair : ∀ a ∈ acc, ∀ b ∈ acc, endswithDot a b = false) :
    (∀ a ∈ l.foldl zoneStep acc, ∀ b ∈ l.foldl zoneStep acc,
        endswithDot a b = false) ∧
    (∀ d ∈ l, d ∈ l.foldl zoneStep acc ∨
        ∃ z ∈ l.foldl zoneStep acc, endswithDot d z = true) := by
  induction l generalizing acc with
  | nil => exact ⟨hpair, by simp⟩
  | cons d l ih =>
    have hl' : l.Pairwise lenLE := (List.pairwise_cons.mp hl).2
    have hdl : ∀ r ∈ l, lenLE d r := (List.pairwise_cons.mp hl).1
    simp only [List.foldl_cons]
    by_cases h : acc.any (fun z => endswithDot d z) = true
    · -- d is skipped: some admitted apex is a proper suffix of it
      rw [zoneStep_pos h]
      have hsort' : ∀ z ∈ acc, ∀ r ∈ l, z.length ≤ r.length :=
        fun z hz r hr => hsort z hz r (List.mem_cons_of_mem _ hr)
      obtain ⟨hp, hc⟩ := ih acc hsort' hl' hpair
      refine ⟨hp, ?_⟩
      intro x hx
      rcases List.mem_cons.mp hx with hxd | hxl
      · subst hxd
        obtain ⟨z, hz, hdz⟩ := List.any_eq_true.mp h
        exact Or.inr ⟨z, mem_zoneFold_of_mem_acc _ _ hz, by simpa using hdz⟩
      · exact hc x hxl
    · -- d is admitted
      rw [zoneStep_neg h]
      have hnot : ∀ z ∈ acc, endswithDot d z = false := by
        intro z hz
        cases hc : endswithDot d z with
        | false => rfl
        | true => exact absurd (List.any_eq_true.mpr ⟨z, hz, by simpa using hc⟩) h
      have hsort' : ∀ z ∈ acc ++ [d], ∀ r ∈ l, z.length ≤ r.length := by
        intro z hz r hr
        rcases List.mem_append.mp hz with hz | hz
        · exact hsort z hz r (List.mem_cons_of_mem _ hr)
        · have hzd : z = d := List.mem_singleton.mp hz
          rw [hzd]
          exact hdl r hr
      have hpair' : ∀ a ∈ acc ++ [d], ∀ b ∈ acc ++ [d],
          endswithDot a b = false := by
        intro a ha b hb
        rcases List.mem_append.mp ha with ha | ha <;>
          rcases List.mem_append.mp hb with hb | hb
        · exact hpair a ha b hb
        · have hbd : b = d := List.mem_singleton.mp hb
          -- a was admitted earlier, so it is no longer than b; a proper
          -- suffix relation would force b to be strictly shorter
          cases hcase : endswithDot a b with
          | false => rfl
          | true =>
            have h1 := endswithDot_length hcase
            have h2 : a.length ≤ b.length :=
              hbd ▸ hsort a ha d (List.mem_cons_self _ _)
            omega
        · have had : a = d := List.mem_singleton.mp ha
          rw [had]
          exact hnot b hb
        · have had : a = d := List.mem_singleton.mp ha
          have hbd : b = d := List.mem_singleton.mp hb
          rw [had, hbd]
          exact endswithDot_irrefl d
      obtain ⟨hp, hc⟩ := ih (acc ++ [d]) hsort' hl' hpair'
      refine ⟨hp, ?_⟩
      intro x hx
      rcases List.mem_cons.mp hx with hxd | hxl
      · subst hxd
        exact Or.inl (mem_zoneFold_of_mem_acc _ _
          (List.mem_append_right _ (List.mem_singleton_self _)))
      · exact hc x hxl

/-- C4: for every input domain set, no admitted apex is a proper
suffix-subdomain of another admitted apex, and every input domain is covered
by exactly one admitted apex: itself, or the unique admitted apex that is a
proper suffix of it. -/
theorem get_dns_zones_minimal_cover (domains : List String) :
    (∀ a ∈ get_dns_zones domains, ∀ b ∈ get_dns_zones domains,
        endswithDot a b = false) ∧
    (∀ d ∈ domains, ∃! z, z ∈ get_dns_zones domains ∧
        (z = d ∨ endswithDot d z = true)) := by
  have hsorted : (List.insertionSort lenLE domains).Pairwise lenLE :=
    List.sorted_insertionSort lenLE domains
  have hinv := zoneFold_inv (List.insertionSort lenLE domains) []
    (by simp) hsorted (by simp)
  rw [show (List.insertionSort lenLE domains).foldl zoneStep [] =
      get_dns_zones domains from rfl] at hinv
  obtain ⟨hpair, hcover⟩ := hinv
  refine ⟨hpair, ?_⟩
  intro d hd
  have hd' : d ∈ List.insertionSort lenLE domains :=
    (List.perm_insertionSort lenLE domains).mem_iff.mpr hd
  by_cases hdz : d ∈ get_dns_zones domains
  · refine ⟨d, ⟨hdz, Or.inl rfl⟩, ?_⟩
    intro z ⟨hz, hor⟩
    rcases hor with rfl | hzd
    · rfl
    · exact absurd hzd (by simp [hpair d hdz z hz])
  · rcases hcover d hd' with hmem | ⟨z, hz, hdz2⟩
    · exact absurd hmem hdz
    · refine ⟨z, ⟨hz, Or.inr hdz2⟩, ?_⟩
      intro w ⟨hw, hor⟩
      rcases hor with rfl | hwd
      · exact absurd hw hdz
      · rcases Nat.lt_trichotomy w.length z.length with hlt | heq | hgt
        · exact absurd (endswithDot_suffix_trans hwd hdz2 hlt)
            (by simp [hpair z hz w hw])
        · exact endswithDot_suffix_eq hwd hdz2 heq
        · exact absurd (endswithDot_suffix_trans hdz2 hwd hgt)
            (by simp [hpair w hw z hz])

/-- C4 witness: a concrete run on `{"b", "a.b", "c"}`: the covering apex of
`"a.b"` among the admitted apexes exists and is unique. -/
theorem get_dns_zones_minimal_cover_witness :
    ("a.b" ∈ (["b", "a.b", "c"] : List String)) ∧
    (∃! z, z ∈ get_dns_zones ["b", "a.b", "c"] ∧
      (z = "a.b" ∨ endswithDot "a.b" z = true)) :=
  ⟨by decide, (get_dns_zones_minimal_cover ["b", "a.b", "c"]).2 "a.b" (by decide)⟩

/-- C7: the claim states a same-value update of a short-form entry returns
false (unchanged).  The code instead compares the stored value against the
literal string `"value"` (line 655, with the same slip for mapping form at
line 675), so a same-value update falls through, reports changed=true and
rewrites the store; the comment `# No change.` in the source shows the claim
describes the intent.  This theorem evaluates the embedded code at the
failing input: the store already holds `www.example.com -> 203.0.113.5` in
short form, the same value is set again, and the call returns `true` with a
byte-identical store. -/
theorem set_custom_same_value_update_bug :
    set_custom_dns_record ["example.com"] "www.example.com" "A"
      (some "203.0.113.5")
      (fun v => if v == "203.0.113.5" then some IpV.V4 else none)
      [("www.example.com", CustomValue.short "203.0.113.5")]
      = Except.ok (true, [("www.example.com", CustomValue.short "203.0.113.5")]) := by
  rfl

/-- C8 counterexample: the claim quantifies over every pair (name, rtype)
for which the store holds no matching record, but for a name that is not
under any managed zone the code raises the not-a-managed-domain error
instead of returning false: here the store is empty, so it holds no record
of type A for `nope.org`, yet the result is an error, not `ok (false, _)`. -/
theorem set_custom_delete_unmanaged_cex :
    set_custom_dns_record ["example.com"] "nope.org" "A" none (fun _ => none) []
      = Except.error
        "nope.org is not a domain name or a subdomain of a domain name managed by this box." := by
  rfl

/-- C8 (amended): for every store state and every (name, rtype) such that
the name equals or is a suffix-subdomain of a managed zone apex and the
store holds no record of type rtype for the name — the name is absent, or
the name is in short form and the (upper-cased) rtype is not A, or the name
is in mapping form without that rtype key — deleting returns false and
leaves the store unchanged. -/
theorem set_custom_delete_nonexistent_noop (domains : List String)
    (qname rtypeRaw : String) (parseIp : String → Option IpV)
    (config : CustomStore)
    (hq : (get_dns_zones domains).any
        (fun zone => qname == zone || endswithDot qname zone) = true)
    (hnone : assocFind config qname = none ∨
      (∃ s, assocFind config qname = some (CustomValue.short s) ∧
        pyUpper rtypeRaw ≠ "A") ∨
      (∃ m, assocFind config qname = some (CustomValue.rmap m) ∧
        assocFind m (pyUpper rtypeRaw) = none)) :
    set_custom_dns_record domains qname rtypeRaw none parseIp config
      = Except.ok (false, config) := by
  unfold set_custom_dns_record setCustomUpdate
  rw [if_pos hq]
  rcases hnone with h | ⟨s, h, hne⟩ | ⟨m, h, hm⟩
  · simp [h]
  · have hb : (pyUpper rtypeRaw == "A") = false := by
      cases hb2 : pyUpper rtypeRaw == "A" with
      | false => rfl
      | true => exact absurd (by simpa using hb2) hne
    simp [h, hb]
  · simp [h, hm]

/-- C8 witness: deleting a TXT record from a short-form entry of a managed
subdomain is a no-op that reports unchanged. -/
theorem set_custom_delete_nonexistent_noop_witness :
    set_custom_dns_record ["example.com"] "www.example.com" "TXT" none
      (fun _ => none) [("www.example.com", CustomValue.short "1.2.3.4")]
      = Except.ok (false, [("www.example.com", CustomValue.short "1.2.3.4")]) :=
  set_custom_delete_nonexistent_noop ["example.com"] "www.example.com" "TXT"
    (fun _ => none) [("www.example.com", CustomValue.short "1.2.3.4")]
    (by decide) (Or.inr (Or.inl ⟨"1.2.3.4", by decide, by decide⟩))

/-- C9: `set_custom_dns_record` raises a validation error — and, raising
before the store is loaded or touched, applies nothing — exactly when the
target name neither equals nor is a suffix-subdomain of a managed zone apex,
or a non-null value is supplied with an (upper-cased) record type outside
A/AAAA/CNAME/TXT, or an A value does not parse as an IPv4 literal, or an
AAAA value does not parse as an IPv6 literal; in particular CNAME and TXT
values are never rejected. -/
theorem set_custom_validation_iff (domains : List String)
    (qname rtypeRaw : String) (value : Option String)
    (parseIp : String → Option IpV) (config : CustomStore) :
    (∃ e, set_custom_dns_record domains qname rtypeRaw value parseIp config
        = Except.error e) ↔
    ((get_dns_zones domains).any
        (fun zone => qname == zone || endswithDot qname zone) = false ∨
      ∃ v, value = some v ∧
        (pyUpper rtypeRaw ∉ (["A", "AAAA", "CNAME", "TXT"] : List String) ∨
         (pyUpper rtypeRaw = "A" ∧ parseIp v ≠ some IpV.V4) ∨
         (pyUpper rtypeRaw = "AAAA" ∧ parseIp v ≠ some IpV.V6))) := by
  unfold set_custom_dns_record
  by_cases hz : (get_dns_zones domains).any
      (fun zone => qname == zone || endswithDot qname zone) = true
  · rw [if_pos hz]
    cases value with
    | none => simp [hz]
    | some v =>
      by_cases hA : pyUpper rtypeRaw = "A"
      · simp only [hA]
        cases hp : parseIp v with
        | none => simp [hz, hA, hp]
        | some ver =>
          cases ver with
          | V4 => simp [hz, hA, hp]
          | V6 => simp [hz, hA, hp]
      · by_cases hAA : pyUpper rtypeRaw = "AAAA"
        · simp only [hAA]
          cases hp : parseIp v with
          | none => simp [hz, hA, hAA, hp]
          | some ver =>
            cases ver with
            | V4 => simp [hz, hA, hAA, hp]
            | V6 => simp [hz, hA, hAA, hp]
        · by_cases hC : pyUpper rtypeRaw = "CNAME"
          · simp [hz, hA, hAA, hC]
          · by_cases hT : pyUpper rtypeRaw = "TXT"
            · simp [hz, hA, hAA, hC, hT]
            · simp [hz, hA, hAA, hC, hT]
  · rw [if_neg hz]
    simp only [Bool.not_eq_true] at hz
    simp [hz]

/-- The recursive call of line 179 receives an empty domain list and an
empty override store, so `build_zone` on those arguments is exactly the
leaf pipeline used inside `subSplice`. -/
theorem build_zone_leaf_eq (d : String) (env : DnsEnv) :
    build_zone d [] [] env false = buildZoneFrom d [] env false [] := rfl

theorem has_rec_append_left {records t : List DnsRecord} {q : Option String}
    {rt : String} {p : Option String} (h : has_rec records q rt p = true) :
    has_rec (records ++ t) q rt p = true := by
  simp only [has_rec, List.any_append, Bool.or_eq_true]
  exact Or.inl h

theorem has_rec_spf_backstop (recs : List DnsRecord) (q : Option String) :
    has_rec (recs ++ [spfBackstopRec q]) q "TXT" (some "v=spf1 ") = true := by
  simp only [has_rec, List.any_append, Bool.or_eq_true]
  exact Or.inr (by simp [spfBackstopRec])

theorem has_rec_dmarc_backstop (recs : List DnsRecord) (dq : String) :
    has_rec (recs ++ [dmarcBackstopRec dq]) (some dq) "TXT"
      (some "v=DMARC1; ") = true := by
  simp only [has_rec, List.any_append, Bool.or_eq_true]
  exact Or.inr (by simp [dmarcBackstopRec])

theorem backstopStep_case1 {recs : List DnsRecord} {q : Option String}
    (h1 : has_rec recs q "TXT" (some "v=spf1 ") = true)
    (h2 : has_rec recs (some (dmarcQname q)) "TXT" (some "v=DMARC1; ") = true) :
    backstopStep recs q = recs := by
  simp only [backstopStep, if_pos h1, if_pos h2]

theorem backstopStep_case2 {recs : List DnsRecord} {q : Option String}
    (h1 : has_rec recs q "TXT" (some "v=spf1 ") = true)
    (h2 : ¬ has_rec recs (some (dmarcQname q)) "TXT" (some "v=DMARC1; ") = true) :
    backstopStep recs q = recs ++ [dmarcBackstopRec (dmarcQname q)] := by
  simp only [backstopStep, dmarcBackstopRec, if_pos h1, if_neg h2]

theorem backstopStep_case3 {recs : List DnsRecord} {q : Option String}
    (h1 : ¬ has_rec recs q "TXT" (some "v=spf1 ") = true)
    (h2 : has_rec (recs ++ [spfBackstopRec q]) (some (dmarcQname q)) "TXT"
      (some "v=DMARC1; ") = true) :
    backstopStep recs q = recs ++ [spfBackstopRec q] := by
  simp only [spfBackstopRec] at h2
  simp only [backstopStep, spfBackstopRec, if_neg h1, if_pos h2]

theorem backstopStep_case4 {recs : List DnsRecord} {q : Option String}
    (h1 : ¬ has_rec recs q "TXT" (some "v=spf1 ") = true)
    (h2 : ¬ has_rec (recs ++ [spfBackstopRec q]) (some (dmarcQname q)) "TXT"
      (some "v=DMARC1; ") = true) :
    backstopStep recs q =
      recs ++ [spfBackstopRec q] ++ [dmarcBackstopRec (dmarcQname q)] := by
  simp only [spfBackstopRec] at h2
  simp only [backstopStep, spfBackstopRec, dmarcBackstopRec, if_neg h1, if_neg h2]

theorem backstopStep_extends (recs : List DnsRecord) (q : Option String) :
    ∃ t, backstopStep recs q = recs ++ t ∧
      ∀ r ∈ t, r = spfBackstopRec q ∨ r = dmarcBackstopRec (dmarcQname q) := by
  by_cases h1 : has_rec recs q "TXT" (some "v=spf1 ") = true
  · by_cases h2 : has_rec recs (some (dmarcQname q)) "TXT"
        (some "v=DMARC1; ") = true
    · exact ⟨[], by simp [backstopStep_case1 h1 h2], by simp⟩
    · refine ⟨[dmarcBackstopRec (dmarcQname q)], backstopStep_case2 h1 h2, ?_⟩
      intro r hr
      exact Or.inr (List.mem_singleton.mp hr)
  · by_cases h2 : has_rec (recs ++ [spfBackstopRec q]) (some (dmarcQname q))
        "TXT" (some "v=DMARC1; ") = true
    · refine ⟨[spfBackstopRec q], backstopStep_case3 h1 h2, ?_⟩
      intro r hr
      exact Or.inl (List.mem_singleton.mp hr)
    · refine ⟨[spfBackstopRec q, dmarcBackstopRec (dmarcQname q)], ?_, ?_⟩
      · rw [backstopStep_case4 h1 h2, List.append_assoc]
        rfl
      · intro r hr
        rcases List.mem_cons.mp hr with h | h
        · exact Or.inl h
        · exact Or.inr (List.mem_singleton.mp h)

theorem backstopFold_extends (l : List (Option String)) (recs : List DnsRecord) :
    ∃ t, l.foldl backstopStep recs = recs ++ t ∧
      ∀ r ∈ t, (∃ q0, r = spfBackstopRec q0) ∨ ∃ dq, r = dmarcBackstopRec dq := by
  induction l generalizing recs with
  | nil => exact ⟨[], by simp, by simp⟩
  | cons q l ih =>
    obtain ⟨t1, ht1, hm1⟩ := backstopStep_extends recs q
    obtain ⟨t2, ht2, hm2⟩ := ih (backstopStep recs q)
    refine ⟨t1 ++ t2, ?_, ?_⟩
    · rw [List.foldl_cons, ht2, ht1, List.append_assoc]
    · intro r hr
      rcases List.mem_append.mp hr with h | h
      · rcases hm1 r h with rfl | rfl
        · exact Or.inl ⟨q, rfl⟩
        · exact Or.inr ⟨dmarcQname q, rfl⟩
      · exact hm2 r h

theorem backstopStep_establishes (recs : List DnsRecord) (q : Option String) :
    has_rec (backstopStep recs q) q "TXT" (some "v=spf1 ") = true ∧
    has_rec (backstopStep recs q) (some (dmarcQname q)) "TXT"
      (some "v=DMARC1; ") = true := by
  by_cases h1 : has_rec recs q "TXT" (some "v=spf1 ") = true
  · by_cases h2 : has_rec recs (some (dmarcQname q)) "TXT"
        (some "v=DMARC1; ") = true
    · rw [backstopStep_case1 h1 h2]
      exact ⟨h1, h2⟩
    · rw [backstopStep_case2 h1 h2]
      exact ⟨has_rec_append_left h1, has_rec_dmarc_backstop recs (dmarcQname q)⟩
  · by_cases h2 : has_rec (recs ++ [spfBackstopRec q]) (some (dmarcQname q))
        "TXT" (some "v=DMARC1; ") = true
    · rw [backstopStep_case3 h1 h2]
      exact ⟨has_rec_spf_backstop recs q, h2⟩
    · rw [backstopStep_case4 h1 h2]
      exact ⟨has_rec_append_left (has_rec_spf_backstop recs q),
        has_rec_dmarc_backstop _ (dmarcQname q)⟩

theorem backstopFold_establishes (l : List (Option String))
    (recs : List DnsRecord) (q : Option String) (hq : q ∈ l) :
    has_rec (l.foldl backstopStep recs) q "TXT" (some "v=spf1 ") = true ∧
    has_rec (l.foldl backstopStep recs) (some (dmarcQname q)) "TXT"
      (some "v=DMARC1; ") = true := by
  induction l generalizing recs with
  | nil => cases hq
  | cons q0 l ih =>
    rw [List.foldl_cons]
    rcases List.mem_cons.mp hq with rfl | hql
    · obtain ⟨hs, hd⟩ := backstopStep_establishes recs q
      obtain ⟨t, ht, _⟩ := backstopFold_extends l (backstopStep recs q)
      rw [ht]
      exact ⟨has_rec_append_left hs, has_rec_append_left hd⟩
    · exact ih _ hql

theorem dmarc_beq_spf_false (dq : String) (q : Option String) :
    (dmarcBackstopRec dq == spfBackstopRec q) = false := by
  cases hb : dmarcBackstopRec dq == spfBackstopRec q with
  | false => rfl
  | true =>
    have h := congrArg DnsRecord.rvalue (eq_of_beq hb)
    simp [dmarcBackstopRec, spfBackstopRec] at h

theorem spf_beq_dmarc_false (q : Option String) (dq : String) :
    (spfBackstopRec q == dmarcBackstopRec dq) = false := by
  cases hb : spfBackstopRec q == dmarcBackstopRec dq with
  | false => rfl
  | true =>
    have h := congrArg DnsRecord.rvalue (eq_of_beq hb)
    simp [dmarcBackstopRec, spfBackstopRec] at h

theorem spf_beq_spf_false {q0 q : Option String} (h : q0 ≠ q) :
    (spfBackstopRec q0 == spfBackstopRec q) = false := by
  cases hb : spfBackstopRec q0 == spfBackstopRec q with
  | false => rfl
  | true => exact absurd (congrArg DnsRecord.qname (eq_of_beq hb)) h

theorem dmarc_beq_dmarc_false {dq0 dq : String} (h : dq0 ≠ dq) :
    (dmarcBackstopRec dq0 == dmarcBackstopRec dq) = false := by
  cases hb : dmarcBackstopRec dq0 == dmarcBackstopRec dq with
  | false => rfl
  | true =>
    have h2 := congrArg DnsRecord.qname (eq_of_beq hb)
    exact absurd (Option.some.inj h2) h

theorem backstopStep_countP_spf {recs : List DnsRecord} {q : Option String}
    (q0 : Option String) (h : has_rec recs q "TXT" (some "v=spf1 ") = true) :
    (backstopStep recs q0).countP (fun r => r == spfBackstopRec q)
      = recs.countP (fun r => r == spfBackstopRec q) := by
  by_cases h1 : has_rec recs q0 "TXT" (some "v=spf1 ") = true
  · by_cases h2 : has_rec recs (some (dmarcQname q0)) "TXT"
        (some "v=DMARC1; ") = true
    · rw [backstopStep_case1 h1 h2]
    · rw [backstopStep_case2 h1 h2, List.countP_append]
      simp [dmarc_beq_spf_false]
  · have hne : q0 ≠ q := by
      rintro rfl
      exact h1 h
    by_cases h2 : has_rec (recs ++ [spfBackstopRec q0]) (some (dmarcQname q0))
        "TXT" (some "v=DMARC1; ") = true
    · rw [backstopStep_case3 h1 h2, List.countP_append]
      simp [spf_beq_spf_false hne]
    · rw [backstopStep_case4 h1 h2, List.countP_append, List.countP_append]
      simp [spf_beq_spf_false hne, dmarc_beq_spf_false]

theorem backstopStep_countP_dmarc {recs : List DnsRecord} {dq : String}
    (q0 : Option String)
    (h : has_rec recs (some dq) "TXT" (some "v=DMARC1; ") = true) :
    (backstopStep recs q0).countP (fun r => r == dmarcBackstopRec dq)
      = recs.countP (fun r => r == dmarcBackstopRec dq) := by
  by_cases h1 : has_rec recs q0 "TXT" (some "v=spf1 ") = true
  · by_cases h2 : has_rec recs (some (dmarcQname q0)) "TXT"
        (some "v=DMARC1; ") = true
    · rw [backstopStep_case1 h1 h2]
    · have hne : dmarcQname q0 ≠ dq := by
        rintro rfl
        exact h2 h
      rw [backstopStep_case2 h1 h2, List.countP_append]
      simp [dmarc_beq_dmarc_false hne]
  · by_cases h2 : has_rec (recs ++ [spfBackstopRec q0]) (some (dmarcQname q0))
        "TXT" (some "v=DMARC1; ") = true
    · rw [backstopStep_case3 h1 h2, List.countP_append]
      simp [spf_beq_dmarc_false]
    · have hne : dmarcQname q0 ≠ dq := by
        rintro rfl
        exact h2 (has_rec_append_left h)
      rw [backstopStep_case4 h1 h2, List.countP_append, List.countP_append]
      simp [spf_beq_dmarc_false, dmarc_beq_dmarc_false hne]

theorem backstopStep_pres_has_rec {recs : List DnsRecord}
    (q0 : Option String) {q : Option String} {rt : String} {p : Option String}
    (h : has_rec recs q rt p = true) :
    has_rec (backstopStep recs q0) q rt p = true := by
  obtain ⟨t, ht, _⟩ := backstopStep_extends recs q0
  rw [ht]
  exact has_rec_append_left h

theorem backstopFold_countP_spf (l : List (Option String))
    (recs : List DnsRecord) (q : Option String)
    (h : has_rec recs q "TXT" (some "v=spf1 ") = true) :
    (l.foldl backstopStep recs).countP (fun r => r == spfBackstopRec q)
      = recs.countP (fun r => r == spfBackstopRec q) := by
  induction l generalizing recs with
  | nil => rfl
  | cons q0 l ih =>
    rw [List.foldl_cons, ih _ (backstopStep_pres_has_rec q0 h),
      backstopStep_countP_spf q0 h]

theorem backstopFold_countP_dmarc (l : List (Option String))
    (recs : List DnsRecord) (dq : String)
    (h : has_rec recs (some dq) "TXT" (some "v=DMARC1; ") = true) :
    (l.foldl backstopStep recs).countP (fun r => r == dmarcBackstopRec dq)
      = recs.countP (fun r => r == dmarcBackstopRec dq) := by
  induction l generalizing recs with
  | nil => rfl
  | cons q0 l ih =>
    rw [List.foldl_cons, ih _ (backstopStep_pres_has_rec q0 h),
      backstopStep_countP_dmarc q0 h]

theorem has_rec_iff_exists (records : List DnsRecord) (q : Option String)
    (rt : String) (p : String) :
    has_rec records q rt (some p) = true ↔
      ∃ r ∈ records, r.qname = q ∧ r.rtype = rt ∧
        List.isPrefixOf p.data r.rvalue.data = true := by
  simp only [has_rec, List.any_eq_true, Bool.and_eq_true, beq_iff_eq]
  constructor
  · rintro ⟨r, hr, ⟨hq, hrt⟩, hp⟩
    exact ⟨r, hr, hq, hrt, hp⟩
  · rintro ⟨r, hr, hq, hrt, hp⟩
    exact ⟨r, hr, ⟨hq, hrt⟩, hp⟩

theorem mem_resolvableQnames {records : List DnsRecord} {r : DnsRecord}
    (hr : r ∈ records) (h : r.rtype = "A" ∨ r.rtype = "AAAA") :
    r.qname ∈ resolvableQnames records := by
  apply List.mem_filterMap.mpr
  refine ⟨r, hr, ?_⟩
  rcases h with h | h <;> simp [h]

/-- C5: after `build_zone` completes, every qname carrying an A or AAAA
record in the output also carries a TXT record whose value starts with
`v=spf1 `, and a TXT record at its `_dmarc` name starting with `v=DMARC1; `;
and the strict backstop tuples (`v=spf1 a mx -all`, `v=DMARC1; p=reject`)
are added only for names that lacked such a record before the backstop pass:
at a name that already had an SPF (resp. a DMARC at its `_dmarc` name), the
output holds exactly as many backstop tuples as the pre-backstop list. -/
theorem build_zone_spf_dmarc_backstop (domain : String)
    (all_domains : List String) (additional : CustomStore) (env : DnsEnv)
    (is_zone : Bool) :
    (∀ q : Option String,
      (∃ r ∈ build_zone domain all_domains additional env is_zone,
        r.qname = q ∧ (r.rtype = "A" ∨ r.rtype = "AAAA")) →
      (∃ r ∈ build_zone domain all_domains additional env is_zone,
        r.qname = q ∧ r.rtype = "TXT" ∧
          List.isPrefixOf "v=spf1 ".data r.rvalue.data = true) ∧
      (∃ r ∈ build_zone domain all_domains additional env is_zone,
        r.qname = some (dmarcQname q) ∧ r.rtype = "TXT" ∧
          List.isPrefixOf "v=DMARC1; ".data r.rvalue.data = true)) ∧
    (∀ q : Option String,
      has_rec (build_zone_pre domain all_domains additional env is_zone) q
          "TXT" (some "v=spf1 ") = true →
      (build_zone domain all_domains additional env is_zone).countP
          (fun r => r == spfBackstopRec q)
        = (build_zone_pre domain all_domains additional env is_zone).countP
          (fun r => r == spfBackstopRec q)) ∧
    (∀ dq : String,
      has_rec (build_zone_pre domain all_domains additional env is_zone)
          (some dq) "TXT" (some "v=DMARC1; ") = true →
      (build_zone domain all_domains additional env is_zone).countP
          (fun r => r == dmarcBackstopRec dq)
        = (build_zone_pre domain all_domains additional env is_zone).countP
          (fun r => r == dmarcBackstopRec dq)) := by
  have hperm : build_zone domain all_domains additional env is_zone
      |>.Perm (addBackstops (build_zone_pre domain all_domains additional env is_zone)) :=
    List.perm_insertionSort recKeyLE _
  refine ⟨?_, ?_, ?_⟩
  · rintro q ⟨r, hr, hq, hA⟩
    have hr2 : r ∈ addBackstops
        (build_zone_pre domain all_domains additional env is_zone) :=
      hperm.mem_iff.mp hr
    obtain ⟨t, ht, hm⟩ := backstopFold_extends
      (resolvableQnames (build_zone_pre domain all_domains additional env is_zone))
      (build_zone_pre domain all_domains additional env is_zone)
    have ht' : addBackstops (build_zone_pre domain all_domains additional env is_zone)
        = build_zone_pre domain all_domains additional env is_zone ++ t := ht
    rw [ht'] at hr2
    rcases List.mem_append.mp hr2 with hpre | hextra
    · have hqmem : q ∈ resolvableQnames
          (build_zone_pre domain all_domains additional env is_zone) :=
        hq ▸ mem_resolvableQnames hpre hA
      obtain ⟨hs, hd⟩ := backstopFold_establishes _ _ q hqmem
      constructor
      · obtain ⟨r2, hr2', hprops⟩ := (has_rec_iff_exists _ _ _ _).mp hs
        exact ⟨r2, hperm.mem_iff.mpr hr2', hprops⟩
      · obtain ⟨r2, hr2', hprops⟩ := (has_rec_iff_exists _ _ _ _).mp hd
        exact ⟨r2, hperm.mem_iff.mpr hr2', hprops⟩
    · exfalso
      rcases hm r hextra with ⟨q0, rfl⟩ | ⟨dq, rfl⟩ <;>
        rcases hA with h | h <;> simp [spfBackstopRec, dmarcBackstopRec] at h
  · intro q h
    rw [hperm.countP_eq]
    exact backstopFold_countP_spf _ _ q h
  · intro dq h
    rw [hperm.countP_eq]
    exact backstopFold_countP_dmarc _ _ dq h

/-- C5 witness: in a concrete zone every A/AAAA name gets SPF and DMARC
coverage; instantiated at the apex. -/
theorem build_zone_spf_dmarc_backstop_witness :
    (∃ r ∈ build_zone "y" [] []
        ⟨"p", "1.2.3.4", none, "t", [], "k", "dk"⟩ true,
      r.qname = none ∧ (r.rtype = "A" ∨ r.rtype = "AAAA")) ∧
    ((∃ r ∈ build_zone "y" [] []
        ⟨"p", "1.2.3.4", none, "t", [], "k", "dk"⟩ true,
      r.qname = none ∧ r.rtype = "TXT" ∧
        List.isPrefixOf "v=spf1 ".data r.rvalue.data = true) ∧
     (∃ r ∈ build_zone "y" [] []
        ⟨"p", "1.2.3.4", none, "t", [], "k", "dk"⟩ true,
      r.qname = some (dmarcQname none) ∧ r.rtype = "TXT" ∧
        List.isPrefixOf "v=DMARC1; ".data r.rvalue.data = true)) :=
  ⟨by decide,
   (build_zone_spf_dmarc_backstop "y" [] []
      ⟨"p", "1.2.3.4", none, "t", [], "k", "dk"⟩ true).1 none (by decide)⟩

/-! Provenance facts about the synthesis pipeline stages, used for the
override-precedence and subdomain-shadowing claims. -/

theorem has_rec_none_iff (records : List DnsRecord) (q : Option String)
    (rt : String) :
    has_rec records q rt none = true ↔
      ∃ r ∈ records, r.qname = q ∧ r.rtype = rt := by
  simp [has_rec, List.any_eq_true, Bool.and_eq_true, beq_iff_eq]

theorem has_rec_eq_false_of_append {records t : List DnsRecord}
    {q : Option String} {rt : String}
    (h : has_rec (records ++ t) q rt none = false) :
    has_rec records q rt none = false := by
  cases hb : has_rec records q rt none with
  | false => rfl
  | true => rw [has_rec_append_left hb] at h; cases h

theorem customStep_skip {recs : List DnsRecord}
    {c : Option String × String × String}
    (h : has_rec recs c.1 c.2.1 none = true) : customStep recs c = recs := by
  simp only [customStep, if_pos h]

theorem customStep_add {recs : List DnsRecord}
    {c : Option String × String × String}
    (h : ¬ has_rec recs c.1 c.2.1 none = true) :
    customStep recs c = recs ++ [⟨c.1, c.2.1, c.2.2, some userSetExplanation⟩] := by
  simp only [customStep, if_neg h]

theorem applyCustomRecords_extends
    (customs : List (Option String × String × String))
    (recs : List DnsRecord) :
    ∃ t, applyCustomRecords recs customs = recs ++ t ∧
      ∀ r ∈ t, r.explanation = some userSetExplanation ∧
        has_rec recs r.qname r.rtype none = false ∧
        ∃ c ∈ customs, r = ⟨c.1, c.2.1, c.2.2, some userSetExplanation⟩ := by
  induction customs generalizing recs with
  | nil => exact ⟨[], by simp [applyCustomRecords], by simp⟩
  | cons c cs ih =>
    have hstep : applyCustomRecords recs (c :: cs)
        = applyCustomRecords (customStep recs c) cs := rfl
    by_cases h : has_rec recs c.1 c.2.1 none = true
    · rw [hstep, customStep_skip h]
      obtain ⟨t, ht, hm⟩ := ih recs
      refine ⟨t, ht, fun r hr => ?_⟩
      obtain ⟨he, hh, c2, hc2, hr2⟩ := hm r hr
      exact ⟨he, hh, c2, List.mem_cons_of_mem _ hc2, hr2⟩
    · rw [hstep, customStep_add h]
      obtain ⟨t, ht, hm⟩ := ih (recs ++ [⟨c.1, c.2.1, c.2.2, some userSetExplanation⟩])
      refine ⟨⟨c.1, c.2.1, c.2.2, some userSetExplanation⟩ :: t, ?_, ?_⟩
      · rw [ht]
        simp
      · intro r hr
        rcases List.mem_cons.mp hr with rfl | hr
        · exact ⟨rfl, Bool.not_eq_true _ ▸ h, c, List.mem_cons_self _ _, rfl⟩
        · obtain ⟨he, hh, c2, hc2, hr2⟩ := hm r hr
          exact ⟨he, has_rec_eq_false_of_append hh, c2,
            List.mem_cons_of_mem _ hc2, hr2⟩

theorem defaultStep_extends (iz : Bool) (recs : List DnsRecord)
    (d : Option String × String × Option String × String) :
    ∃ t, defaultStep iz recs d = recs ++ t ∧
      ∀ r ∈ t, r.qname = d.1 ∧ r.rtype = d.2.1 ∧ d.2.2.1 = some r.rvalue ∧
        r.explanation = some d.2.2.2 ∧ has_rec recs d.1 d.2.1 none = false := by
  unfold defaultStep
  cases hv : d.2.2.1 with
  | none => exact ⟨[], by simp, by simp⟩
  | some v =>
    dsimp only
    by_cases h1 : (pyStrip v == "") = true
    · rw [if_pos h1]
      exact ⟨[], by simp, by simp⟩
    · rw [if_neg h1]
      by_cases h2 : (!iz && d.1 == some "www") = true
      · rw [if_pos h2]
        exact ⟨[], by simp, by simp⟩
      · rw [if_neg h2]
        by_cases h3 : has_rec recs d.1 d.2.1 none = true
        · rw [if_pos h3]
          exact ⟨[], by simp, by simp⟩
        · rw [if_neg h3]
          refine ⟨[⟨d.1, d.2.1, v, some d.2.2.2⟩], rfl, ?_⟩
          intro r hr
          rcases List.mem_singleton.mp hr with rfl
          exact ⟨rfl, rfl, rfl, rfl, Bool.not_eq_true _ ▸ h3⟩

theorem defaultsFold_extends
    (ds : List (Option String × String × Option String × String))
    (iz : Bool) (recs : List DnsRecord) :
    ∃ t, ds.foldl (defaultStep iz) recs = recs ++ t ∧
      ∀ r ∈ t, ∃ d ∈ ds, r.qname = d.1 ∧ r.rtype = d.2.1 ∧
        d.2.2.1 = some r.rvalue ∧ r.explanation = some d.2.2.2 ∧
        has_rec recs r.qname r.rtype none = false := by
  induction ds generalizing recs with
  | nil => exact ⟨[], by simp, by simp⟩
  | cons d ds ih =>
    rw [List.foldl_cons]
    obtain ⟨t1, ht1, hm1⟩ := defaultStep_extends iz recs d
    obtain ⟨t2, ht2, hm2⟩ := ih (defaultStep iz recs d)
    refine ⟨t1 ++ t2, by rw [ht2, ht1, List.append_assoc], ?_⟩
    intro r hr
    rcases List.mem_append.mp hr with hr | hr
    · obtain ⟨hq, hrt, hv, he, hh⟩ := hm1 r hr
      exact ⟨d, List.mem_cons_self _ _, hq, hrt, hv, he, hq ▸ hrt ▸ hh⟩
    · obtain ⟨d2, hd2, hq, hrt, hv, he, hh⟩ := hm2 r hr
      rw [ht1] at hh
      exact ⟨d2, List.mem_cons_of_mem _ hd2, hq, hrt, hv, he,
        has_rec_eq_false_of_append hh⟩

theorem buildZonePre_cases (domain : String) (additional : CustomStore)
    (env : DnsEnv) (iz : Bool) (subs : List DnsRecord) (r : DnsRecord)
    (hr : r ∈ buildZonePre domain additional env iz subs) :
    r ∈ baseRecords domain env iz ++ subs ∨
    (r.explanation = some userSetExplanation ∧
      has_rec (baseRecords domain env iz ++ subs) r.qname r.rtype none = false) ∨
    (∃ d ∈ zoneDefaults domain env, r.qname = d.1 ∧ r.rtype = d.2.1 ∧
      d.2.2.1 = some r.rvalue ∧ r.explanation = some d.2.2.2) ∨
    r = ⟨some env.dkimQname, "TXT", env.dkimValue, some (dkimExplanation domain)⟩ ∨
    r = ⟨some "_dmarc", "TXT", "v=DMARC1; p=quarantine",
      some (dmarcExplanation domain)⟩ := by
  unfold buildZonePre at hr
  rcases List.mem_append.mp hr with hr | hr
  · rcases List.mem_append.mp hr with hr | hr
    · -- inside applyDefaults (applyCustomRecords ...)
      obtain ⟨tc, htc, hmc⟩ := applyCustomRecords_extends
        (get_custom_records domain additional env)
        (baseRecords domain env iz ++ subs)
      obtain ⟨td, htd, hmd⟩ := defaultsFold_extends (zoneDefaults domain env) iz
        (applyCustomRecords (baseRecords domain env iz ++ subs)
          (get_custom_records domain additional env))
      rw [show applyDefaults
            (applyCustomRecords (baseRecords domain env iz ++ subs)
              (get_custom_records domain additional env)) domain env iz
          = _ from htd] at hr
      rcases List.mem_append.mp hr with hr | hr
      · rw [htc] at hr
        rcases List.mem_append.mp hr with hr | hr
        · exact Or.inl hr
        · obtain ⟨he, hh, _⟩ := hmc r hr
          exact Or.inr (Or.inl ⟨he, hh⟩)
      · obtain ⟨d, hd, hq, hrt, hv, he, _⟩ := hmd r hr
        exact Or.inr (Or.inr (Or.inl ⟨d, hd, hq, hrt, hv, he⟩))
    · rcases List.mem_singleton.mp hr with rfl
      exact Or.inr (Or.inr (Or.inr (Or.inl rfl)))
  · rcases List.mem_singleton.mp hr with rfl
    exact Or.inr (Or.inr (Or.inr (Or.inr rfl)))

/-! Counting lemmas for the override-precedence claim. -/

/-- With no `startswith` filter, `has_rec` is a plain `(qname, rtype)`
search. -/
theorem has_rec_none_any (recs : List DnsRecord) (q : Option String)
    (rt : String) :
    has_rec recs q rt none = recs.any (fun r => r.qname == q && r.rtype == rt) := by
  unfold has_rec
  congr 1
  funext r
  simp

theorem any_eq_false_iff_countP_zero (l : List DnsRecord)
    (p : DnsRecord → Bool) : l.any p = false ↔ l.countP p = 0 := by
  simp [List.any_eq_false, List.countP_eq_zero]

theorem applyCustomRecords_countP_preserve
    (cs : List (Option String × String × String)) (recs : List DnsRecord)
    (q : Option String) (rt : String)
    (h : has_rec recs q rt none = true) :
    (applyCustomRecords recs cs).countP (fun r => r.qname == q && r.rtype == rt)
      = recs.countP (fun r => r.qname == q && r.rtype == rt) := by
  induction cs generalizing recs with
  | nil => rfl
  | cons c cs ih =>
    have hstep : applyCustomRecords recs (c :: cs)
        = applyCustomRecords (customStep recs c) cs := rfl
    rw [hstep]
    by_cases hc : has_rec recs c.1 c.2.1 none = true
    · rw [customStep_skip hc]
      exact ih recs h
    · rw [customStep_add hc]
      have hx : ((c.1 : Option String) == q && (c.2.1 : String) == rt) = false := by
        cases hb : ((c.1 : Option String) == q && (c.2.1 : String) == rt) with
        | false => rfl
        | true =>
          have hb2 : c.1 = q ∧ c.2.1 = rt := by simpa using hb
          exact absurd (hb2.1 ▸ hb2.2 ▸ h) hc
      rw [ih _ (has_rec_append_left h), List.countP_append]
      simp [hx]

theorem applyCustomRecords_apexA
    (cs : List (Option String × String × String)) (recs : List DnsRecord)
    (v : String)
    (h0 : has_rec recs none "A" none = false)
    (hfind : firstApexA cs = some v) :
    (applyCustomRecords recs cs).countP
        (fun r => r.qname == none && r.rtype == "A") = 1 ∧
    (⟨none, "A", v, some userSetExplanation⟩ : DnsRecord)
      ∈ applyCustomRecords recs cs := by
  induction cs generalizing recs with
  | nil => simp [firstApexA] at hfind
  | cons c cs ih =>
    have hstep : applyCustomRecords recs (c :: cs)
        = applyCustomRecords (customStep recs c) cs := rfl
    rw [hstep]
    by_cases hp : ((c.1 : Option String) == none && (c.2.1 : String) == "A") = true
    · have hp2 : c.1 = none ∧ c.2.1 = "A" := by simpa using hp
      have e1 : c.1 = none := hp2.1
      have e2 : c.2.1 = "A" := hp2.2
      have hv : v = c.2.2 := by
        have h2 : List.find? (fun c => c.1 == none && c.2.1 == "A") (c :: cs)
            = some c := by
          rw [List.find?_cons_of_pos]
          exact hp
        unfold firstApexA at hfind
        rw [h2] at hfind
        simpa using hfind.symm
      have hc : ¬ has_rec recs c.1 c.2.1 none = true := by
        rw [e1, e2, h0]
        simp
      rw [customStep_add hc]
      have hafter : has_rec
          (recs ++ [⟨c.1, c.2.1, c.2.2, some userSetExplanation⟩])
          none "A" none = true := by
        rw [has_rec_none_any]
        simp [List.any_append, e1, e2]
      have hcount := applyCustomRecords_countP_preserve cs
        (recs ++ [⟨c.1, c.2.1, c.2.2, some userSetExplanation⟩]) none "A" hafter
      constructor
      · rw [hcount, List.countP_append]
        have h0c : recs.countP (fun r => r.qname == none && r.rtype == "A") = 0 := by
          rw [← any_eq_false_iff_countP_zero, ← has_rec_none_any]
          exact h0
        simp [h0c, e1, e2]
      · obtain ⟨t, ht, _⟩ := applyCustomRecords_extends cs
          (recs ++ [⟨c.1, c.2.1, c.2.2, some userSetExplanation⟩])
        rw [ht]
        apply List.mem_append_left
        apply List.mem_append_right
        rw [e1, e2, hv]
        exact List.mem_singleton_self _
    · have hfind' : firstApexA cs = some v := by
        have h2 : List.find? (fun c => c.1 == none && c.2.1 == "A") (c :: cs)
            = List.find? (fun c => c.1 == none && c.2.1 == "A") cs := by
          rw [List.find?_cons_of_neg]
          simp [hp]
        unfold firstApexA at hfind ⊢
        rw [h2] at hfind
        exact hfind
      by_cases hc : has_rec recs c.1 c.2.1 none = true
      · rw [customStep_skip hc]
        exact ih recs h0 hfind'
      · rw [customStep_add hc]
        have h0' : has_rec
            (recs ++ [⟨c.1, c.2.1, c.2.2, some userSetExplanation⟩])
            none "A" none = false := by
          rw [has_rec_none_any] at h0 ⊢
          simp only [List.any_append, h0, Bool.false_or, List.any_cons,
            List.any_nil, Bool.or_false]
          exact Bool.not_eq_true _ ▸ hp
        exact ih _ h0' hfind'

theorem find?_append_left_none {α : Type} (p : α → Bool) (l₁ l₂ : List α)
    (h : ∀ c ∈ l₁, p c = false) :
    (l₁ ++ l₂).find? p = l₂.find? p := by
  induction l₁ with
  | nil => rfl
  | cons a l ih =>
    rw [List.cons_append, List.find?_cons_of_neg _ (by simp [h a (List.mem_cons_self _ _)]),
      ih (fun c hc => h c (List.mem_cons_of_mem _ hc))]

theorem entryCustoms_pred_false {domain : String} {env : DnsEnv}
    {e : String × CustomValue} (hk : (e.1 == domain) = false) :
    ∀ c ∈ entryCustoms domain env e,
      ((c.1 : Option String) == none && (c.2.1 : String) == "A") = false := by
  intro c hc
  unfold entryCustoms at hc
  by_cases hunder : (! ((e.1 == domain) || endswithDot e.1 domain)) = true
  · rw [if_pos hunder] at hc
    cases hc
  · rw [if_neg hunder] at hc
    dsimp only at hc
    rw [if_neg (by simp [hk])] at hc
    obtain ⟨rv, _, hcv⟩ := List.mem_filterMap.mp hc
    unfold resolveCustom at hcv
    have hq : c.1 = some (stripDotSuffix e.1 domain) := by
      by_cases b1 : ((rv.1 : String) == "A" && (rv.2 : String) == "local") = true
      · rw [if_pos b1] at hcv
        cases hcv
        rfl
      · rw [if_neg b1] at hcv
        by_cases b2 : ((rv.1 : String) == "AAAA" && (rv.2 : String) == "local") = true
        · rw [if_pos b2] at hcv
          cases h6 : env.publicIpv6 with
          | none => rw [h6] at hcv; cases hcv
          | some ip6 =>
            rw [h6] at hcv
            cases hcv
            rfl
        · rw [if_neg b2] at hcv
          cases hcv
          rfl
    rw [hq]
    rfl

theorem find_apexA_filterMap (env : DnsEnv)
    (rest : List (Option String × String × String)) :
    ∀ (m : List (String × String)) (v : String), assocFind m "A" = some v →
    ((m.filterMap (resolveCustom env none)) ++ rest).find?
        (fun c => c.1 == none && c.2.1 == "A")
      = some (none, "A", if v == "local" then env.publicIp else v) := by
  intro m
  induction m with
  | nil =>
    intro v hv
    simp [assocFind] at hv
  | cons rv m ih =>
    intro v hv
    by_cases hk : ((rv.1 : String) == "A") = true
    · have hv2 : rv.2 = v := by
        unfold assocFind at hv
        rw [if_pos hk] at hv
        simpa using hv
      subst hv2
      by_cases hl : ((rv.2 : String) == "local") = true
      · have : resolveCustom env none rv = some (none, "A", env.publicIp) := by
          unfold resolveCustom
          rw [if_pos (by simp [hk, hl])]
          have e1 : rv.1 = "A" := by simpa using hk
          rw [e1]
        rw [List.filterMap_cons_some this, List.cons_append,
          List.find?_cons_of_pos _ (by simp), if_pos hl]
      · have : resolveCustom env none rv = some (none, "A", rv.2) := by
          unfold resolveCustom
          have e1 : rv.1 = "A" := by simpa using hk
          rw [if_neg (by simp [hl]), if_neg (by simp [e1]), e1]
        rw [List.filterMap_cons_some this, List.cons_append,
          List.find?_cons_of_pos _ (by simp), if_neg hl]
    · have hv' : assocFind m "A" = some v := by
        unfold assocFind at hv
        rwa [if_neg hk] at hv
      by_cases b1 : ((rv.1 : String) == "A" && (rv.2 : String) == "local") = true
      · exact absurd (by simpa using (by simpa using b1 : rv.1 = "A" ∧ rv.2 = "local").1) (by simpa using hk)
      · by_cases b2 : ((rv.1 : String) == "AAAA" && (rv.2 : String) == "local") = true
        · cases h6 : env.publicIpv6 with
          | none =>
            have : resolveCustom env none rv = none := by
              unfold resolveCustom
              rw [if_neg b1, if_pos b2, h6]
            rw [List.filterMap_cons_none this]
            exact ih v hv'
          | some ip6 =>
            have : resolveCustom env none rv = some (none, rv.1, ip6) := by
              unfold resolveCustom
              rw [if_neg b1, if_pos b2, h6]
            rw [List.filterMap_cons_some this, List.cons_append,
              List.find?_cons_of_neg _ (by simp [hk])]
            exact ih v hv'
        · have : resolveCustom env none rv = some (none, rv.1, rv.2) := by
            unfold resolveCustom
            rw [if_neg b1, if_neg b2]
          rw [List.filterMap_cons_some this, List.cons_append,
            List.find?_cons_of_neg _ (by simp [hk])]
          exact ih v hv'

theorem firstApexA_entry_domain (domain : String) (env : DnsEnv)
    (val : CustomValue) (v : String)
    (hv : (match val with
           | CustomValue.short s => some s
           | CustomValue.rmap m => assocFind m "A") = some v)
    (rest : List (Option String × String × String)) :
    ((entryCustoms domain env (domain, val)) ++ rest).find?
        (fun c => c.1 == none && c.2.1 == "A")
      = some (none, "A", if v == "local" then env.publicIp else v) := by
  cases val with
  | short s =>
    have hsv : s = v := by simpa using hv
    subst hsv
    unfold entryCustoms
    rw [if_neg (by simp)]
    dsimp only
    rw [if_pos (by simp : ((domain == domain) = true))]
    by_cases hc : ((s == "local") && ipv6Truthy env) = true
    · rw [if_pos hc]
      have hl : (s == "local") = true := by
        have := by simpa using hc
        simp [this.1]
      have hres : resolveCustom env none ("A", s) = some (none, "A", env.publicIp) := by
        unfold resolveCustom
        rw [if_pos (by simp [hl])]
      rw [List.filterMap_cons_some hres, List.cons_append,
        List.find?_cons_of_pos _ (by simp), if_pos hl]
    · rw [if_neg hc]
      by_cases hl : ((s == "local") : Bool) = true
      · have hres : resolveCustom env none ("A", s) = some (none, "A", env.publicIp) := by
          unfold resolveCustom
          rw [if_pos (by simp [hl])]
        rw [List.filterMap_cons_some hres, List.cons_append,
          List.find?_cons_of_pos _ (by simp), if_pos hl]
      · have hres : resolveCustom env none ("A", s) = some (none, "A", s) := by
          unfold resolveCustom
          rw [if_neg (by simp [hl]), if_neg (by simp)]
        rw [List.filterMap_cons_some hres, List.cons_append,
          List.find?_cons_of_pos _ (by simp), if_neg hl]
  | rmap m =>
    have hm : assocFind m "A" = some v := hv
    unfold entryCustoms
    rw [if_neg (by simp)]
    dsimp only
    rw [if_pos (by simp : ((domain == domain) = true))]
    exact find_apexA_filterMap env rest m v hm

/-- Bridging lemma: if the override store holds an apex A override for the
domain, the first apex-A custom record produced by `get_custom_records`
carries its `local`-resolved value. -/
theorem firstApexA_get_custom (domain : String) (additional : CustomStore)
    (env : DnsEnv) (v : String)
    (hv : lookupApexA additional domain = some v) :
    firstApexA (get_custom_records domain additional env)
      = some (if v == "local" then env.publicIp else v) := by
  induction additional with
  | nil => simp [lookupApexA, assocFind] at hv
  | cons e rest ih =>
    obtain ⟨k, val⟩ := e
    have hsplit : get_custom_records domain ((k, val) :: rest) env
        = entryCustoms domain env (k, val) ++ get_custom_records domain rest env := by
      simp [get_custom_records]
    by_cases hk : ((k : String) == domain) = true
    · have hdom : k = domain := by simpa using hk
      have ha : assocFind ((k, val) :: rest) domain = some val := by
        simp [assocFind, hk]
      unfold lookupApexA at hv
      rw [ha] at hv
      unfold firstApexA
      rw [hsplit, hdom]
      cases val with
      | short s =>
        have hsv : some s = some v := hv
        rw [firstApexA_entry_domain domain env (CustomValue.short s) v hsv
          (get_custom_records domain rest env)]
        rfl
      | rmap m =>
        have hm : assocFind m "A" = some v := hv
        rw [firstApexA_entry_domain domain env (CustomValue.rmap m) v hm
          (get_custom_records domain rest env)]
        rfl
    · have hv' : lookupApexA rest domain = some v := by
        unfold lookupApexA at hv ⊢
        have ha : assocFind ((k, val) :: rest) domain = assocFind rest domain := by
          simp [assocFind, hk]
        rw [ha] at hv
        exact hv
      unfold firstApexA at ih ⊢
      rw [hsplit, find?_append_left_none _ _ _
        (entryCustoms_pred_false (Bool.not_eq_true _ ▸ hk))]
      exact ih hv'

theorem applyDefaults_countP_preserve (domain : String) (env : DnsEnv)
    (iz : Bool) (recs : List DnsRecord) (q : Option String) (rt : String)
    (h : has_rec recs q rt none = true) :
    (applyDefaults recs domain env iz).countP
        (fun r => r.qname == q && r.rtype == rt)
      = recs.countP (fun r => r.qname == q && r.rtype == rt) := by
  obtain ⟨t, ht, hm⟩ := defaultsFold_extends (zoneDefaults domain env) iz recs
  rw [show applyDefaults recs domain env iz = recs ++ t from ht,
    List.countP_append]
  have hz : t.countP (fun r => r.qname == q && r.rtype == rt) = 0 := by
    rw [List.countP_eq_zero]
    intro r hr hp
    obtain ⟨d, _, _, _, _, _, hh⟩ := hm r hr
    have hp2 : r.qname = q ∧ r.rtype = rt := by simpa using hp
    rw [hp2.1, hp2.2, h] at hh
    cases hh
  omega

theorem defaultsFold_establishes
    (ds : List (Option String × String × Option String × String)) (iz : Bool)
    (rt v e : String) (hstrip : (pyStrip v == "") = false) :
    ∀ recs : List DnsRecord, ((none : Option String), rt, some v, e) ∈ ds →
      has_rec (ds.foldl (defaultStep iz) recs) none rt none = true := by
  induction ds with
  | nil =>
    intro recs h
    cases h
  | cons d ds ih =>
    intro recs hd
    rw [List.foldl_cons]
    rcases List.mem_cons.mp hd with heq | hd2
    · obtain ⟨t2, ht2, _⟩ := defaultsFold_extends ds iz (defaultStep iz recs d)
      rw [ht2]
      apply has_rec_append_left
      rw [← heq]
      by_cases h3 : has_rec recs none rt none = true
      · obtain ⟨t1, ht1, _⟩ := defaultStep_extends iz recs
          ((none : Option String), rt, some v, e)
        rw [ht1]
        exact has_rec_append_left h3
      · have hstep : defaultStep iz recs ((none : Option String), rt, some v, e)
            = recs ++ [⟨none, rt, v, some e⟩] := by
          unfold defaultStep
          dsimp only
          rw [if_neg (by simp [hstrip]), if_neg (by simp), if_neg h3]
        rw [hstep, has_rec_none_any]
        simp [List.any_append]
    · exact ih (defaultStep iz recs d) hd2

theorem applyDefaults_establishes (recs : List DnsRecord) (domain : String)
    (env : DnsEnv) (iz : Bool) (rt v e : String)
    (hd : ((none : Option String), rt, some v, e) ∈ zoneDefaults domain env)
    (hstrip : (pyStrip v == "") = false) :
    has_rec (applyDefaults recs domain env iz) none rt none = true :=
  defaultsFold_establishes (zoneDefaults domain env) iz rt v e hstrip recs hd

theorem subSplice_qname_some {domain : String} {all : List String}
    {env : DnsEnv} {r : DnsRecord} (hr : r ∈ subSplice domain all env) :
    ∃ s, r.qname = some s := by
  unfold subSplice at hr
  rw [List.mem_flatMap] at hr
  obtain ⟨sub, _, hr2⟩ := hr
  unfold requalify at hr2
  rw [List.mem_map] at hr2
  obtain ⟨r0, _, heq⟩ := hr2
  exact ⟨_, by rw [← heq]⟩

theorem baseRecords_countP_apexA (domain : String) (env : DnsEnv)
    (hne : (domain == env.primaryHostname) = false) (iz : Bool) :
    (baseRecords domain env iz).countP
      (fun r => r.qname == none && r.rtype == "A") = 0 := by
  cases iz <;>
    simp +decide [baseRecords, hne, List.countP_append, List.countP_cons]

theorem addBackstops_countP_apexA (recs : List DnsRecord) :
    (addBackstops recs).countP (fun r => r.qname == none && r.rtype == "A")
      = recs.countP (fun r => r.qname == none && r.rtype == "A") := by
  obtain ⟨t, ht, hm⟩ := backstopFold_extends (resolvableQnames recs) recs
  rw [show addBackstops recs = recs ++ t from ht, List.countP_append]
  have hz : t.countP (fun r => r.qname == none && r.rtype == "A") = 0 := by
    rw [List.countP_eq_zero]
    intro r hr hp
    have hp2 : r.qname = none ∧ r.rtype = "A" := by simpa using hp
    rcases hm r hr with ⟨q0, rfl⟩ | ⟨dq, rfl⟩ <;>
      exact absurd hp2.2 (by simp [spfBackstopRec, dmarcBackstopRec])
  omega

theorem two_mem_two_le_countP {l : List DnsRecord} {a b : DnsRecord}
    (ha : a ∈ l) (hb : b ∈ l) (hne : a ≠ b) (p : DnsRecord → Bool)
    (hpa : p a = true) (hpb : p b = true) : 2 ≤ l.countP p := by
  obtain ⟨l1, l2, rfl⟩ := List.append_of_mem ha
  rw [List.countP_append, List.countP_cons]
  rcases List.mem_append.mp hb with h | h
  · have h1 : 0 < l1.countP p := List.countP_pos_iff.mpr ⟨b, h, hpb⟩
    simp [hpa]
    omega
  · rcases List.mem_cons.mp h with h | h
    · exact absurd h.symm hne
    · have h1 : 0 < l2.countP p := List.countP_pos_iff.mpr ⟨b, h, hpb⟩
      simp [hpa]
      omega

theorem ne_userSet_of_head {s : String} {c : Char}
    (h : s.data.head? = some c) (hc : c ≠ '(') : s ≠ userSetExplanation := by
  intro he
  rw [he] at h
  have : c = '(' := by
    have h2 : (userSetExplanation.data.head? : Option Char) = some '(' := rfl
    rw [h2] at h
    exact (Option.some.inj h).symm
  exact hc this

theorem subSplice_countP_apexA (domain : String) (all : List String)
    (env : DnsEnv) :
    (subSplice domain all env).countP
      (fun r => r.qname == none && r.rtype == "A") = 0 := by
  rw [List.countP_eq_zero]
  intro r hr hp
  obtain ⟨s, hs⟩ := subSplice_qname_some hr
  have hp2 : r.qname = none ∧ r.rtype = "A" := by simpa using hp
  rw [hs] at hp2
  exact Option.noConfusion hp2.1

theorem defaultApexAExplanation_ne_userSet (domain : String) :
    defaultApexAExplanation domain ≠ userSetExplanation := by
  refine ne_userSet_of_head (c := 'R') ?_ (by decide)
  cases domain with
  | mk l => rfl

/-- Before the backstop pass and the sort, an apex A override yields exactly
one apex A record, carrying the `local`-resolved override value, marked as
set by the user. -/
theorem buildZonePre_apexA (domain : String) (all : List String)
    (additional : CustomStore) (env : DnsEnv) (iz : Bool) (v : String)
    (hne : (domain == env.primaryHostname) = false)
    (hv : lookupApexA additional domain = some v) :
    (build_zone_pre domain all additional env iz).countP
        (fun r => r.qname == none && r.rtype == "A") = 1 ∧
    (⟨none, "A", if v == "local" then env.publicIp else v,
        some userSetExplanation⟩ : DnsRecord)
      ∈ build_zone_pre domain all additional env iz := by
  have h0count : (baseRecords domain env iz ++ subSplice domain all env).countP
      (fun r => r.qname == none && r.rtype == "A") = 0 := by
    rw [List.countP_append, baseRecords_countP_apexA domain env hne iz,
      subSplice_countP_apexA]
  have h0 : has_rec (baseRecords domain env iz ++ subSplice domain all env)
      none "A" none = false := by
    rw [has_rec_none_any, any_eq_false_iff_countP_zero]
    exact h0count
  have hfind := firstApexA_get_custom domain additional env v hv
  obtain ⟨hc1, hc2⟩ := applyCustomRecords_apexA
    (get_custom_records domain additional env)
    (baseRecords domain env iz ++ subSplice domain all env)
    (if v == "local" then env.publicIp else v) h0 hfind
  have hhr : has_rec (applyCustomRecords
      (baseRecords domain env iz ++ subSplice domain all env)
      (get_custom_records domain additional env)) none "A" none = true := by
    rw [has_rec_none_any, List.any_eq_true]
    exact ⟨_, hc2, by simp⟩
  have hd := applyDefaults_countP_preserve domain env iz
    (applyCustomRecords (baseRecords domain env iz ++ subSplice domain all env)
      (get_custom_records domain additional env)) none "A" hhr
  obtain ⟨td, htd, _⟩ := defaultsFold_extends (zoneDefaults domain env) iz
    (applyCustomRecords (baseRecords domain env iz ++ subSplice domain all env)
      (get_custom_records domain additional env))
  constructor
  · show (buildZonePre domain additional env iz (subSplice domain all env)).countP
        _ = 1
    unfold buildZonePre
    rw [List.countP_append, List.countP_append, hd, hc1]
    simp
  · show _ ∈ buildZonePre domain additional env iz (subSplice domain all env)
    unfold buildZonePre
    apply List.mem_append_left
    apply List.mem_append_left
    rw [show applyDefaults
        (applyCustomRecords
          (baseRecords domain env iz ++ subSplice domain all env)
          (get_custom_records domain additional env)) domain env iz
      = _ from htd]
    exact List.mem_append_left _ hc2

/-- C6 (corrected): apex override precedence holds only away from the
primary hostname, and the emitted value is the override value after the
`local` sentinel is resolved to the box address.  Under those corrections:
a managed domain other than the primary hostname with a stored apex A
override yields exactly one apex A record in the built zone, that record
carries the resolved override value and the set-by-user annotation, and the
built-in default apex A record (value PUBLIC_IP with its required-record
explanation) is absent. -/
theorem build_zone_apex_override (domain : String) (all : List String)
    (additional : CustomStore) (env : DnsEnv) (iz : Bool) (v : String)
    (hne : (domain == env.primaryHostname) = false)
    (hv : lookupApexA additional domain = some v) :
    (⟨none, "A", if v == "local" then env.publicIp else v,
        some userSetExplanation⟩ : DnsRecord)
      ∈ build_zone domain all additional env iz ∧
    (build_zone domain all additional env iz).countP
        (fun r => r.qname == none && r.rtype == "A") = 1 ∧
    (⟨none, "A", env.publicIp, some (defaultApexAExplanation domain)⟩ : DnsRecord)
      ∉ build_zone domain all additional env iz := by
  obtain ⟨hc1, hc2⟩ := buildZonePre_apexA domain all additional env iz v hne hv
  have hperm : List.Perm (build_zone domain all additional env iz)
      (addBackstops (build_zone_pre domain all additional env iz)) :=
    List.perm_insertionSort recKeyLE _
  obtain ⟨tb, htb, _⟩ := backstopFold_extends
    (resolvableQnames (build_zone_pre domain all additional env iz))
    (build_zone_pre domain all additional env iz)
  have hmem : (⟨none, "A", if v == "local" then env.publicIp else v,
      some userSetExplanation⟩ : DnsRecord)
      ∈ addBackstops (build_zone_pre domain all additional env iz) := by
    rw [show addBackstops (build_zone_pre domain all additional env iz)
        = _ from htb]
    exact List.mem_append_left _ hc2
  have hcount : (addBackstops (build_zone_pre domain all additional env iz)).countP
      (fun r => r.qname == none && r.rtype == "A") = 1 := by
    rw [addBackstops_countP_apexA, hc1]
  refine ⟨hperm.mem_iff.mpr hmem, (hperm.countP_eq _).trans hcount, ?_⟩
  intro hdef
  have hdef2 : (⟨none, "A", env.publicIp,
      some (defaultApexAExplanation domain)⟩ : DnsRecord)
      ∈ addBackstops (build_zone_pre domain all additional env iz) :=
    hperm.mem_iff.mp hdef
  have hne2 : (⟨none, "A", if v == "local" then env.publicIp else v,
      some userSetExplanation⟩ : DnsRecord)
      ≠ ⟨none, "A", env.publicIp, some (defaultApexAExplanation domain)⟩ := by
    intro h
    have h2 := congrArg DnsRecord.explanation h
    simp only [Option.some.injEq] at h2
    exact defaultApexAExplanation_ne_userSet domain h2.symm
  have h2le := two_mem_two_le_countP hmem hdef2 hne2
    (fun r => r.qname == none && r.rtype == "A") (by simp) (by simp)
  omega

/-- Witness for the override-precedence theorem: a concrete store with an
apex A override for a non-primary managed domain. -/
theorem build_zone_apex_override_witness :
    (("example.com" : String) == ("box.example" : String)) = false ∧
    lookupApexA [("example.com", CustomValue.short "9.9.9.9")] "example.com"
      = some "9.9.9.9" ∧
    ((⟨none, "A", if ("9.9.9.9" : String) == "local" then "1.2.3.4" else "9.9.9.9",
        some userSetExplanation⟩ : DnsRecord)
      ∈ build_zone "example.com" ["example.com"]
          [("example.com", CustomValue.short "9.9.9.9")]
          ⟨"box.example", "1.2.3.4", none, "t", [], "k", "dk"⟩ true ∧
     (build_zone "example.com" ["example.com"]
          [("example.com", CustomValue.short "9.9.9.9")]
          ⟨"box.example", "1.2.3.4", none, "t", [], "k", "dk"⟩ true).countP
        (fun r => r.qname == none && r.rtype == "A") = 1 ∧
     (⟨none, "A", "1.2.3.4",
        some (defaultApexAExplanation "example.com")⟩ : DnsRecord)
      ∉ build_zone "example.com" ["example.com"]
          [("example.com", CustomValue.short "9.9.9.9")]
          ⟨"box.example", "1.2.3.4", none, "t", [], "k", "dk"⟩ true) :=
  ⟨by decide, by decide,
   build_zone_apex_override "example.com" ["example.com"]
     [("example.com", CustomValue.short "9.9.9.9")]
     ⟨"box.example", "1.2.3.4", none, "t", [], "k", "dk"⟩ true "9.9.9.9"
     (by decide) (by decide)⟩

/-- C6 counterexample: at the primary hostname the claim fails — the
built-in apex A record wins, the override value never appears, and no
record is annotated as set by the user. -/
theorem build_zone_apex_override_primary_cex :
    (((build_zone "box.ex" ["box.ex"] [("box.ex", CustomValue.short "5.6.7.8")]
        ⟨"box.ex", "1.2.3.4", none, "t", [], "k", "dk"⟩ true).filter
      (fun r => r.qname == none && r.rtype == "A")).map (fun r => r.rvalue)
    = ["1.2.3.4"]) ∧
    ((⟨none, "A", "5.6.7.8", some userSetExplanation⟩ : DnsRecord)
      ∉ build_zone "box.ex" ["box.ex"] [("box.ex", CustomValue.short "5.6.7.8")]
          ⟨"box.ex", "1.2.3.4", none, "t", [], "k", "dk"⟩ true) := by
  constructor
  · decide
  · decide

/-! Facts for the subdomain-shadowing claim: the records a leaf zone (the
recursive call of line 179, empty domain list and empty override store) can
contain, and how they splice into the parent. -/

theorem baseRecords_members (dom : String) (env : DnsEnv) (iz : Bool)
    (r : DnsRecord) (hr : r ∈ baseRecords dom env iz) :
    (r.rtype = "A" → r.rvalue = env.publicIp ∧
      r.explanation ≠ some userSetExplanation) ∧
    (r.rtype = "AAAA" → r.rvalue = ipv6Val env ∧
      r.explanation ≠ some userSetExplanation) := by
  simp only [baseRecords, List.mem_append, List.mem_ite_nil_right, List.mem_cons,
    List.not_mem_nil, or_false, List.mem_map] at hr
  rcases hr with (⟨-, rfl | rfl⟩ |
      ⟨-, (((((rfl | rfl) | ⟨-, rfl | rfl⟩) | rfl) | ⟨-, rfl⟩) | rfl) |
        ⟨a, -, rfl⟩⟩) |
    rfl | rfl
  all_goals
    exact ⟨fun h => by simp_all +decide [userSetExplanation],
           fun h => by simp_all +decide [userSetExplanation]⟩

theorem defaultWwwAExplanation_ne_userSet (domain : String) :
    defaultWwwAExplanation domain ≠ userSetExplanation := by
  refine ne_userSet_of_head (c := 'O') ?_ (by decide)
  cases domain with
  | mk l => rfl

theorem defaultApexAaaaExplanation_ne_userSet (domain : String) :
    defaultApexAaaaExplanation domain ≠ userSetExplanation := by
  refine ne_userSet_of_head (c := 'O') ?_ (by decide)
  cases domain with
  | mk l => rfl

theorem defaultWwwAaaaExplanation_ne_userSet (domain : String) :
    defaultWwwAaaaExplanation domain ≠ userSetExplanation := by
  refine ne_userSet_of_head (c := 'O') ?_ (by decide)
  cases domain with
  | mk l => rfl

theorem zoneDefaults_entry (dom : String) (env : DnsEnv)
    (d : Option String × String × Option String × String)
    (hd : d ∈ zoneDefaults dom env) :
    (d.2.1 = "A" → d.2.2.1 = some env.publicIp ∧
      d.2.2.2 ≠ userSetExplanation) ∧
    (d.2.1 = "AAAA" → d.2.2.1 = env.publicIpv6 ∧
      d.2.2.2 ≠ userSetExplanation) := by
  simp only [zoneDefaults, List.mem_cons, List.not_mem_nil, or_false] at hd
  rcases hd with rfl | rfl | rfl | rfl
  · exact ⟨fun _ => ⟨rfl, defaultApexAExplanation_ne_userSet dom⟩,
           fun h => by simp_all +decide⟩
  · exact ⟨fun _ => ⟨rfl, defaultWwwAExplanation_ne_userSet dom⟩,
           fun h => by simp_all +decide⟩
  · exact ⟨fun h => by simp_all +decide,
           fun _ => ⟨rfl, defaultApexAaaaExplanation_ne_userSet dom⟩⟩
  · exact ⟨fun h => by simp_all +decide,
           fun _ => ⟨rfl, defaultWwwAaaaExplanation_ne_userSet dom⟩⟩

theorem default_implications (dom : String) (env : DnsEnv) (r : DnsRecord)
    (d : Option String × String × Option String × String)
    (hd : d ∈ zoneDefaults dom env) (_hq : r.qname = d.1) (hrt : r.rtype = d.2.1)
    (hv : d.2.2.1 = some r.rvalue) (he : r.explanation = some d.2.2.2) :
    (r.rtype = "A" → r.rvalue = env.publicIp ∧
      r.explanation ≠ some userSetExplanation) ∧
    (r.rtype = "AAAA" → r.rvalue = ipv6Val env ∧
      r.explanation ≠ some userSetExplanation) := by
  obtain ⟨hA, hAAAA⟩ := zoneDefaults_entry dom env d hd
  constructor
  · intro h
    obtain ⟨hv2, hne⟩ := hA (hrt.symm.trans h)
    refine ⟨Option.some.inj (hv.symm.trans hv2), ?_⟩
    rw [he]
    intro hc
    exact hne (Option.some.inj hc)
  · intro h
    obtain ⟨hv2, hne⟩ := hAAAA (hrt.symm.trans h)
    have h6 : env.publicIpv6 = some r.rvalue := hv2.symm.trans hv
    refine ⟨?_, ?_⟩
    · have hval : ipv6Val env = r.rvalue := by
        unfold ipv6Val
        rw [h6]
        rfl
      exact hval.symm
    · rw [he]
      intro hc
      exact hne (Option.some.inj hc)

/-- With an empty override store and an empty domain list, the pre-backstop
record list is the base records followed by the defaults, DKIM and DMARC. -/
theorem leafPre_eq (s : String) (env : DnsEnv) :
    buildZonePre s [] env false []
      = applyDefaults (baseRecords s env false ++ []) s env false
        ++ [⟨some env.dkimQname, "TXT", env.dkimValue, some (dkimExplanation s)⟩]
        ++ [⟨some "_dmarc", "TXT", "v=DMARC1; p=quarantine",
             some (dmarcExplanation s)⟩] := rfl

/-- Every address record of a leaf zone carries the box address and is not
marked as set by the user. -/
theorem leaf_addr_members (s : String) (env : DnsEnv) (r : DnsRecord)
    (hr : r ∈ buildZoneFrom s [] env false []) :
    (r.rtype = "A" → r.rvalue = env.publicIp ∧
      r.explanation ≠ some userSetExplanation) ∧
    (r.rtype = "AAAA" → r.rvalue = ipv6Val env ∧
      r.explanation ≠ some userSetExplanation) := by
  have hperm : List.Perm (buildZoneFrom s [] env false [])
      (addBackstops (buildZonePre s [] env false [])) :=
    List.perm_insertionSort recKeyLE _
  have hr2 : r ∈ addBackstops (buildZonePre s [] env false []) :=
    hperm.mem_iff.mp hr
  obtain ⟨t, ht, hm⟩ := backstopFold_extends
    (resolvableQnames (buildZonePre s [] env false []))
    (buildZonePre s [] env false [])
  rw [show addBackstops (buildZonePre s [] env false []) = _ from ht] at hr2
  rcases List.mem_append.mp hr2 with hr3 | hr3
  · rw [leafPre_eq] at hr3
    rcases List.mem_append.mp hr3 with hr4 | hr4
    · rcases List.mem_append.mp hr4 with hr5 | hr5
      · obtain ⟨td, htd, hmd⟩ := defaultsFold_extends (zoneDefaults s env) false
          (baseRecords s env false ++ [])
        rw [show applyDefaults (baseRecords s env false ++ []) s env false
            = _ from htd] at hr5
        rcases List.mem_append.mp hr5 with hr6 | hr6
        · rw [List.append_nil] at hr6
          exact baseRecords_members s env false r hr6
        · obtain ⟨d, hd, hq, hrt, hv, he, -⟩ := hmd r hr6
          exact default_implications s env r d hd hq hrt hv he
      · rcases List.mem_singleton.mp hr5 with rfl
        exact ⟨fun h => by simp_all +decide, fun h => by simp_all +decide⟩
    · rcases List.mem_singleton.mp hr4 with rfl
      exact ⟨fun h => by simp_all +decide, fun h => by simp_all +decide⟩
  · rcases hm r hr3 with ⟨q0, rfl⟩ | ⟨dq, rfl⟩
    · exact ⟨fun h => by simp_all +decide [spfBackstopRec],
             fun h => by simp_all +decide [spfBackstopRec]⟩
    · exact ⟨fun h => by simp_all +decide [dmarcBackstopRec],
             fun h => by simp_all +decide [dmarcBackstopRec]⟩

/-- Spliced subdomain records inherit the leaf-zone address guarantees. -/
theorem subSplice_addr_members (domain : String) (all : List String)
    (env : DnsEnv) (r : DnsRecord) (hr : r ∈ subSplice domain all env) :
    (r.rtype = "A" → r.rvalue = env.publicIp ∧
      r.explanation ≠ some userSetExplanation) ∧
    (r.rtype = "AAAA" → r.rvalue = ipv6Val env ∧
      r.explanation ≠ some userSetExplanation) := by
  unfold subSplice at hr
  rw [List.mem_flatMap] at hr
  obtain ⟨sub, -, hr2⟩ := hr
  unfold requalify at hr2
  rw [List.mem_map] at hr2
  obtain ⟨r0, hr0, heq⟩ := hr2
  obtain ⟨hA, hAAAA⟩ := leaf_addr_members sub env r0 hr0
  rw [← heq]
  exact ⟨hA, hAAAA⟩

/-- A default filled with a non-blank value makes the leaf zone carry a
record of its type at the apex. -/
theorem leaf_establishes_apex (s : String) (env : DnsEnv) (rt v e : String)
    (hd : ((none : Option String), rt, some v, e) ∈ zoneDefaults s env)
    (hstrip : (pyStrip v == "") = false) :
    ∃ r0 ∈ buildZoneFrom s [] env false [], r0.qname = none ∧ r0.rtype = rt := by
  have h1 : has_rec (applyDefaults (baseRecords s env false ++ []) s env false)
      none rt none = true :=
    applyDefaults_establishes (baseRecords s env false ++ []) s env false
      rt v e hd hstrip
  rw [has_rec_none_any, List.any_eq_true] at h1
  obtain ⟨r0, hr0, hp⟩ := h1
  have hp2 : r0.qname = none ∧ r0.rtype = rt := by simpa using hp
  have hmem : r0 ∈ buildZonePre s [] env false [] := by
    rw [leafPre_eq]
    exact List.mem_append_left _ (List.mem_append_left _ hr0)
  obtain ⟨t, ht, -⟩ := backstopFold_extends
    (resolvableQnames (buildZonePre s [] env false []))
    (buildZonePre s [] env false [])
  have hmem2 : r0 ∈ addBackstops (buildZonePre s [] env false []) := by
    rw [show addBackstops (buildZonePre s [] env false []) = _ from ht]
    exact List.mem_append_left _ hmem
  have hperm : List.Perm (buildZoneFrom s [] env false [])
      (addBackstops (buildZonePre s [] env false [])) :=
    List.perm_insertionSort recKeyLE _
  exact ⟨r0, hperm.mem_iff.mpr hmem2, hp2⟩

theorem mem_build_zone_of_mem_start {domain : String} {all : List String}
    {additional : CustomStore} {env : DnsEnv} {iz : Bool} {r : DnsRecord}
    (hr : r ∈ baseRecords domain env iz ++ subSplice domain all env) :
    r ∈ build_zone domain all additional env iz := by
  obtain ⟨tc, htc, -⟩ := applyCustomRecords_extends
    (get_custom_records domain additional env)
    (baseRecords domain env iz ++ subSplice domain all env)
  obtain ⟨td, htd, -⟩ := defaultsFold_extends (zoneDefaults domain env) iz
    (applyCustomRecords (baseRecords domain env iz ++ subSplice domain all env)
      (get_custom_records domain additional env))
  have hpre : r ∈ build_zone_pre domain all additional env iz := by
    show r ∈ buildZonePre domain additional env iz (subSplice domain all env)
    unfold buildZonePre
    apply List.mem_append_left
    apply List.mem_append_left
    rw [show applyDefaults
        (applyCustomRecords
          (baseRecords domain env iz ++ subSplice domain all env)
          (get_custom_records domain additional env)) domain env iz
      = _ from htd]
    apply List.mem_append_left
    rw [htc]
    exact List.mem_append_left _ hr
  obtain ⟨tb, htb, -⟩ := backstopFold_extends
    (resolvableQnames (build_zone_pre domain all additional env iz))
    (build_zone_pre domain all additional env iz)
  have hab : r ∈ addBackstops (build_zone_pre domain all additional env iz) := by
    rw [show addBackstops (build_zone_pre domain all additional env iz)
        = _ from htb]
    exact List.mem_append_left _ hpre
  exact (List.perm_insertionSort recKeyLE _).mem_iff.mpr hab

/-- Any address record at a qname already covered by the base-plus-subzone
records keeps the box address and is never the user-set copy of an
override. -/
theorem build_zone_at_covered_qname (domain : String) (all : List String)
    (additional : CustomStore) (env : DnsEnv) (iz : Bool) (q : String)
    (rt : String)
    (hcov : has_rec (baseRecords domain env iz ++ subSplice domain all env)
      (some q) rt none = true)
    (r : DnsRecord) (hr : r ∈ build_zone domain all additional env iz)
    (hq : r.qname = some q) (hrt : r.rtype = rt) :
    (r.rtype = "A" → r.rvalue = env.publicIp ∧
      r.explanation ≠ some userSetExplanation) ∧
    (r.rtype = "AAAA" → r.rvalue = ipv6Val env ∧
      r.explanation ≠ some userSetExplanation) := by
  have hperm : List.Perm (build_zone domain all additional env iz)
      (addBackstops (build_zone_pre domain all additional env iz)) :=
    List.perm_insertionSort recKeyLE _
  have hr2 : r ∈ addBackstops (build_zone_pre domain all additional env iz) :=
    hperm.mem_iff.mp hr
  obtain ⟨t, ht, hm⟩ := backstopFold_extends
    (resolvableQnames (build_zone_pre domain all additional env iz))
    (build_zone_pre domain all additional env iz)
  rw [show addBackstops (build_zone_pre domain all additional env iz)
      = _ from ht] at hr2
  rcases List.mem_append.mp hr2 with hr3 | hr3
  · rcases buildZonePre_cases domain additional env iz
      (subSplice domain all env) r hr3 with
      hbs | ⟨hus, hnone⟩ | ⟨d, hd, hq2, hrt2, hv2, he2⟩ | rfl | rfl
    · rcases List.mem_append.mp hbs with hb | hb
      · exact baseRecords_members domain env iz r hb
      · exact subSplice_addr_members domain all env r hb
    · rw [hq, hrt, hcov] at hnone
      cases hnone
    · exact default_implications domain env r d hd hq2 hrt2 hv2 he2
    · exact ⟨fun h => by simp_all +decide, fun h => by simp_all +decide⟩
    · exact ⟨fun h => by simp_all +decide, fun h => by simp_all +decide⟩
  · rcases hm r hr3 with ⟨q0, rfl⟩ | ⟨dq, rfl⟩
    · exact ⟨fun h => by simp_all +decide [spfBackstopRec],
             fun h => by simp_all +decide [spfBackstopRec]⟩
    · exact ⟨fun h => by simp_all +decide [dmarcBackstopRec],
             fun h => by simp_all +decide [dmarcBackstopRec]⟩

/-- A default of the subdomain leaf zone reaches the parent output at the
shortened qname, and its carrier is one of the spliced records. -/
theorem build_zone_shadow_exists (domain s : String) (all : List String)
    (additional : CustomStore) (env : DnsEnv) (iz : Bool) (rt v e : String)
    (hs : s ∈ all) (hsub : endswithDot s domain = true)
    (hd : ((none : Option String), rt, some v, e) ∈ zoneDefaults s env)
    (hstrip : (pyStrip v == "") = false) :
    ∃ r ∈ build_zone domain all additional env iz,
      r.qname = some (stripDotSuffix s domain) ∧ r.rtype = rt ∧
      r ∈ baseRecords domain env iz ++ subSplice domain all env := by
  obtain ⟨r0, hr0leaf, hq0, hrt0⟩ := leaf_establishes_apex s env rt v e hd hstrip
  obtain ⟨q0, rt0, rv0, e0⟩ := r0
  dsimp only at hq0 hrt0
  subst hq0
  subst rt0
  have hmem2 : (⟨some (stripDotSuffix s domain), rt, rv0, e0⟩ : DnsRecord)
      ∈ requalify (stripDotSuffix s domain) (buildZoneFrom s [] env false []) := by
    unfold requalify
    exact List.mem_map.mpr ⟨⟨none, rt, rv0, e0⟩, hr0leaf, rfl⟩
  have hsubs : (⟨some (stripDotSuffix s domain), rt, rv0, e0⟩ : DnsRecord)
      ∈ subSplice domain all env := by
    unfold subSplice
    exact List.mem_flatMap.mpr ⟨s, List.mem_filter.mpr ⟨hs, hsub⟩, hmem2⟩
  have hbs : (⟨some (stripDotSuffix s domain), rt, rv0, e0⟩ : DnsRecord)
      ∈ baseRecords domain env iz ++ subSplice domain all env :=
    List.mem_append_right _ hsubs
  exact ⟨_, mem_build_zone_of_mem_start hbs, rfl, rfl, hbs⟩

/-- C10: subdomain defaults shadow subdomain overrides.  For every listed
strict subdomain `s` of the apex being synthesized, provided the configured
PUBLIC_IP is not blank, the parent output holds an A record at the
shortened subdomain name, and every A record at that name carries
PUBLIC_IP and is not the user-set copy of an override — so an override of
type A addressed to the subdomain is skipped by the first-write-wins check
and its value never appears there.  When PUBLIC_IPV6 is configured with a
non-blank value the same holds for AAAA records with the IPv6 address. -/
theorem build_zone_subdomain_shadow (domain s : String) (all : List String)
    (additional : CustomStore) (env : DnsEnv) (iz : Bool)
    (hs : s ∈ all) (hsub : endswithDot s domain = true)
    (hip : (pyStrip env.publicIp == "") = false) :
    (∃ r ∈ build_zone domain all additional env iz,
        r.qname = some (stripDotSuffix s domain) ∧ r.rtype = "A" ∧
        r.rvalue = env.publicIp ∧ r.explanation ≠ some userSetExplanation) ∧
    (∀ r ∈ build_zone domain all additional env iz,
        r.qname = some (stripDotSuffix s domain) → r.rtype = "A" →
        r.rvalue = env.publicIp ∧ r.explanation ≠ some userSetExplanation) ∧
    (∀ v6, env.publicIpv6 = some v6 → (pyStrip v6 == "") = false →
      (∃ r ∈ build_zone domain all additional env iz,
          r.qname = some (stripDotSuffix s domain) ∧ r.rtype = "AAAA" ∧
          r.rvalue = ipv6Val env ∧ r.explanation ≠ some userSetExplanation) ∧
      (∀ r ∈ build_zone domain all additional env iz,
          r.qname = some (stripDotSuffix s domain) → r.rtype = "AAAA" →
          r.rvalue = ipv6Val env ∧ r.explanation ≠ some userSetExplanation)) := by
  have hdA : ((none : Option String), "A", some env.publicIp,
      defaultApexAExplanation s) ∈ zoneDefaults s env := by
    simp [zoneDefaults]
  obtain ⟨rA, hrAmem, hqA, hrtA, hbsA⟩ :=
    build_zone_shadow_exists domain s all additional env iz "A" env.publicIp
      (defaultApexAExplanation s) hs hsub hdA hip
  have hcovA : has_rec (baseRecords domain env iz ++ subSplice domain all env)
      (some (stripDotSuffix s domain)) "A" none = true := by
    rw [has_rec_none_any, List.any_eq_true]
    exact ⟨rA, hbsA, by simp [hqA, hrtA]⟩
  refine ⟨⟨rA, hrAmem, hqA, hrtA, ?_⟩, ?_, ?_⟩
  · exact (build_zone_at_covered_qname domain all additional env iz
      (stripDotSuffix s domain) "A" hcovA rA hrAmem hqA hrtA).1 hrtA
  · intro r hr hq hrt
    exact (build_zone_at_covered_qname domain all additional env iz
      (stripDotSuffix s domain) "A" hcovA r hr hq hrt).1 hrt
  · intro v6 h6 h6s
    have hdS : ((none : Option String), "AAAA", some v6,
        defaultApexAaaaExplanation s) ∈ zoneDefaults s env := by
      simp [zoneDefaults, h6]
    obtain ⟨rS, hrSmem, hqS, hrtS, hbsS⟩ :=
      build_zone_shadow_exists domain s all additional env iz "AAAA" v6
        (defaultApexAaaaExplanation s) hs hsub hdS h6s
    have hcovS : has_rec (baseRecords domain env iz ++ subSplice domain all env)
        (some (stripDotSuffix s domain)) "AAAA" none = true := by
      rw [has_rec_none_any, List.any_eq_true]
      exact ⟨rS, hbsS, by simp [hqS, hrtS]⟩
    refine ⟨⟨rS, hrSmem, hqS, hrtS, ?_⟩, ?_⟩
    · exact (build_zone_at_covered_qname domain all additional env iz
        (stripDotSuffix s domain) "AAAA" hcovS rS hrSmem hqS hrtS).2 hrtS
    · intro r hr hq hrt
      exact (build_zone_at_covered_qname domain all additional env iz
        (stripDotSuffix s domain) "AAAA" hcovS r hr hq hrt).2 hrt

/-- Witness for the subdomain-shadowing theorem at a concrete managed
subdomain with a configured IPv6 address. -/
theorem build_zone_subdomain_shadow_witness :
    ("sub.ex.com" : String) ∈ ["ex.com", "sub.ex.com"] ∧
    endswithDot "sub.ex.com" "ex.com" = true ∧
    (pyStrip (DnsEnv.mk "box.ex" "1.2.3.4" (some "2001:db8::1") "t" [] "k"
      "dk").publicIp == "") = false ∧
    ((∃ r ∈ build_zone "ex.com" ["ex.com", "sub.ex.com"]
          [("sub.ex.com", CustomValue.short "9.9.9.9")]
          (DnsEnv.mk "box.ex" "1.2.3.4" (some "2001:db8::1") "t" [] "k" "dk") true,
        r.qname = some (stripDotSuffix "sub.ex.com" "ex.com") ∧ r.rtype = "A" ∧
        r.rvalue = (DnsEnv.mk "box.ex" "1.2.3.4" (some "2001:db8::1") "t" [] "k"
          "dk").publicIp ∧
        r.explanation ≠ some userSetExplanation) ∧
     (∀ r ∈ build_zone "ex.com" ["ex.com", "sub.ex.com"]
          [("sub.ex.com", CustomValue.short "9.9.9.9")]
          (DnsEnv.mk "box.ex" "1.2.3.4" (some "2001:db8::1") "t" [] "k" "dk") true,
        r.qname = some (stripDotSuffix "sub.ex.com" "ex.com") → r.rtype = "A" →
        r.rvalue = (DnsEnv.mk "box.ex" "1.2.3.4" (some "2001:db8::1") "t" [] "k"
          "dk").publicIp ∧
        r.explanation ≠ some userSetExplanation) ∧
     (∀ v6, (DnsEnv.mk "box.ex" "1.2.3.4" (some "2001:db8::1") "t" [] "k"
          "dk").publicIpv6 = some v6 → (pyStrip v6 == "") = false →
       (∃ r ∈ build_zone "ex.com" ["ex.com", "sub.ex.com"]
            [("sub.ex.com", CustomValue.short "9.9.9.9")]
            (DnsEnv.mk "box.ex" "1.2.3.4" (some "2001:db8::1") "t" [] "k" "dk") true,
          r.qname = some (stripDotSuffix "sub.ex.com" "ex.com") ∧
          r.rtype = "AAAA" ∧
          r.rvalue = ipv6Val (DnsEnv.mk "box.ex" "1.2.3.4" (some "2001:db8::1")
            "t" [] "k" "dk") ∧
          r.explanation ≠ some userSetExplanation) ∧
       (∀ r ∈ build_zone "ex.com" ["ex.com", "sub.ex.com"]
            [("sub.ex.com", CustomValue.short "9.9.9.9")]
            (DnsEnv.mk "box.ex" "1.2.3.4" (some "2001:db8::1") "t" [] "k" "dk") true,
          r.qname = some (stripDotSuffix "sub.ex.com" "ex.com") →
          r.rtype = "AAAA" →
          r.rvalue = ipv6Val (DnsEnv.mk "box.ex" "1.2.3.4" (some "2001:db8::1")
            "t" [] "k" "dk") ∧
          r.explanation ≠ some userSetExplanation))) :=
  ⟨by decide, by decide, by decide,
   build_zone_subdomain_shadow "ex.com" "sub.ex.com" ["ex.com", "sub.ex.com"]
     [("sub.ex.com", CustomValue.short "9.9.9.9")]
     (DnsEnv.mk "box.ex" "1.2.3.4" (some "2001:db8::1") "t" [] "k" "dk") true
     (by decide) (by decide) (by decide)⟩

/-- C2: forced re-sign.  Whenever the `.signed` sibling is absent, or
yields no RRSIG-over-SOA expiration timestamps, or its minimum timestamp
parses and lies less than 3 days after the current time, `write_nsd_zone`
returns true and writes the zone file — regardless of the previous zone
contents, so in particular also when the rendering equals the previous
text modulo the serial token. -/
theorem write_nsd_zone_force_resign (domain primary : String)
    (records : List DnsRecord) (signedContent existingZone : Option String)
    (now : PyDateTime) (nowUsec : Nat)
    (h : signedContent = none ∨
      (∃ sc, signedContent = some sc ∧ rrsigFindall sc = []) ∨
      (∃ sc t ts, signedContent = some sc ∧ rrsigFindall sc = t :: ts ∧
        validTs (pyMinStr t ts) = true ∧
        epochSec (parseTs (pyMinStr t ts)) * 1000000 <
          epochSec now * 1000000 + (nowUsec : Int) + 259200000000)) :
    ∃ contents, write_nsd_zone domain primary records signedContent
      existingZone now nowUsec false = Except.ok (true, some contents) := by
  have hfb : (match signedContent with
      | none => Except.ok true
      | some sc =>
        match rrsigFindall sc with
        | [] => Except.ok true
        | t :: ts =>
          if validTs (pyMinStr t ts) then
            Except.ok (decide (epochSec (parseTs (pyMinStr t ts)) * 1000000 <
              epochSec now * 1000000 + (nowUsec : Int) + 259200000000))
          else Except.error "time data does not match format")
      = Except.ok true := by
    rcases h with rfl | ⟨sc, rfl, hrf⟩ | ⟨sc, t, ts, rfl, hrf, hval, hlt⟩
    · rfl
    · simp [hrf]
    · simp [hrf, hval, decide_eq_true hlt]
  simp only [write_nsd_zone]
  rw [hfb]
  cases existingZone with
  | none => exact ⟨_, rfl⟩
  | some ez =>
    cases hfs : findSerial ez with
    | none =>
      exact ⟨pyReplace (renderZoneText domain primary records) "__SERIAL__"
        (dateSerial now), by simp [hfs]⟩
    | some g =>
      obtain ⟨es, g0⟩ := g
      exact ⟨pyReplace (renderZoneText domain primary records) "__SERIAL__"
        (chooseSerial es (dateSerial now)), by simp [hfs]⟩

/-- Witness for the forced re-sign theorem: no `.signed` artifact. -/
theorem write_nsd_zone_force_resign_witness :
    ((none : Option String) = none ∨
      (∃ sc, (none : Option String) = some sc ∧ rrsigFindall sc = []) ∨
      (∃ sc t ts, (none : Option String) = some sc ∧
        rrsigFindall sc = t :: ts ∧ validTs (pyMinStr t ts) = true ∧
        epochSec (parseTs (pyMinStr t ts)) * 1000000 <
          epochSec (PyDateTime.mk 2025 10 12 0 0 0) * 1000000 + ((0 : Nat) : Int)
            + 259200000000)) ∧
    ∃ contents, write_nsd_zone "a.b" "a.b" [] none none
      (PyDateTime.mk 2025 10 12 0 0 0) 0 false
      = Except.ok (true, some contents) :=
  ⟨Or.inl rfl,
   write_nsd_zone_force_resign "a.b" "a.b" [] none none
     (PyDateTime.mk 2025 10 12 0 0 0) 0 (Or.inl rfl)⟩

/-! Decimal facts for the serial comparison. -/

theorem parseNatL_foldl (l : List Char) :
    ∀ a : Nat, List.foldl (fun a c => a * 10 + (c.toNat - 48)) a l
      = a * 10 ^ l.length + parseNatL l := by
  induction l with
  | nil =>
    intro a
    simp [parseNatL]
  | cons c r ih =>
    intro a
    have h2 : parseNatL (c :: r) = (c.toNat - 48) * 10 ^ r.length + parseNatL r := by
      show List.foldl _ (0 * 10 + (c.toNat - 48)) r = _
      rw [ih (0 * 10 + (c.toNat - 48))]
      ring_nf
    show List.foldl _ (a * 10 + (c.toNat - 48)) r = _
    rw [ih (a * 10 + (c.toNat - 48)), h2, List.length_cons, pow_succ]
    ring

theorem parseNatL_cons (c : Char) (r : List Char) :
    parseNatL (c :: r) = (c.toNat - 48) * 10 ^ r.length + parseNatL r := by
  show List.foldl _ (0 * 10 + (c.toNat - 48)) r = _
  rw [parseNatL_foldl r (0 * 10 + (c.toNat - 48))]
  ring_nf

theorem parseNatL_lt (l : List Char) (h : l.all pyIsDigit = true) :
    parseNatL l < 10 ^ l.length := by
  induction l with
  | nil => simp [parseNatL]
  | cons c r ih =>
    have h2 : pyIsDigit c = true ∧ r.all pyIsDigit = true := by simpa using h
    have hv : c.toNat - 48 ≤ 9 := by
      have h3 := h2.1
      simp [pyIsDigit] at h3
      omega
    have hr := ih h2.2
    rw [parseNatL_cons, List.length_cons, pow_succ]
    have hm : (c.toNat - 48) * 10 ^ r.length ≤ 9 * 10 ^ r.length :=
      Nat.mul_le_mul_right _ hv
    have he : 10 ^ r.length * 10 = 9 * 10 ^ r.length + 10 ^ r.length := by ring
    linarith

/-- On digit strings of equal length, Python string comparison is numeric
comparison. -/
theorem pyListLtChar_digits (a : List Char) :
    ∀ b : List Char, a.length = b.length → a.all pyIsDigit = true →
      b.all pyIsDigit = true →
      (pyListLtChar a b = true ↔ parseNatL a < parseNatL b) := by
  induction a with
  | nil =>
    intro b hlen _ _
    have hb : b = [] := List.eq_nil_of_length_eq_zero hlen.symm
    subst hb
    simp [pyListLtChar, parseNatL]
  | cons c r ih =>
    intro b hlen ha hb
    cases b with
    | nil => simp at hlen
    | cons d s =>
      have hlen2 : r.length = s.length := by simpa using hlen
      have ha2 : pyIsDigit c = true ∧ r.all pyIsDigit = true := by simpa using ha
      have hb2 : pyIsDigit d = true ∧ s.all pyIsDigit = true := by simpa using hb
      have hca : 48 ≤ c.toNat ∧ c.toNat ≤ 57 := by
        have h3 := ha2.1
        simp [pyIsDigit] at h3
        omega
      have hdb : 48 ≤ d.toNat ∧ d.toNat ≤ 57 := by
        have h3 := hb2.1
        simp [pyIsDigit] at h3
        omega
      have hra := parseNatL_lt r ha2.2
      have hrb := parseNatL_lt s hb2.2
      rw [hlen2] at hra
      rw [parseNatL_cons, parseNatL_cons, hlen2]
      simp only [pyListLtChar]
      by_cases h1 : c.toNat < d.toNat
      · rw [if_pos h1]
        have hvv : c.toNat - 48 + 1 ≤ d.toNat - 48 := by omega
        have hstep : (c.toNat - 48 + 1) * 10 ^ s.length
            ≤ (d.toNat - 48) * 10 ^ s.length := Nat.mul_le_mul_right _ hvv
        have hexp : (c.toNat - 48 + 1) * 10 ^ s.length
            = (c.toNat - 48) * 10 ^ s.length + 10 ^ s.length := by ring
        constructor
        · intro _
          linarith
        · intro _
          rfl
      · rw [if_neg h1]
        by_cases h2 : d.toNat < c.toNat
        · rw [if_pos h2]
          have hvv : d.toNat - 48 + 1 ≤ c.toNat - 48 := by omega
          have hstep : (d.toNat - 48 + 1) * 10 ^ s.length
              ≤ (c.toNat - 48) * 10 ^ s.length := Nat.mul_le_mul_right _ hvv
          have hexp : (d.toNat - 48 + 1) * 10 ^ s.length
              = (d.toNat - 48) * 10 ^ s.length + 10 ^ s.length := by ring
          constructor
          · intro hcon
            cases hcon
          · intro hcon
            exact absurd hcon (by
              intro hcon2
              linarith)
        · rw [if_neg h2]
          have hvv : c.toNat - 48 = d.toNat - 48 := by omega
          rw [hvv]
          rw [ih s hlen2 ha2.2 hb2.2]
          omega

theorem parseNatL_natDigitsAux :
    ∀ fuel n : Nat, n < fuel → parseNatL (natDigitsAux fuel n) = n := by
  intro fuel
  induction fuel with
  | zero =>
    intro n hn
    omega
  | succ fuel ih =>
    intro n hn
    by_cases h10 : n < 10
    · have hchar : (Char.ofNat (48 + n)).toNat = 48 + n := by
        interval_cases n <;> rfl
      simp [natDigitsAux, h10, parseNatL, hchar]
    · have hstep : natDigitsAux (fuel + 1) n
          = natDigitsAux fuel (n / 10) ++ [Char.ofNat (48 + n % 10)] := by
        simp [natDigitsAux, h10]
      have hmod : n % 10 < 10 := Nat.mod_lt _ (by omega)
      have hchar : (Char.ofNat (48 + n % 10)).toNat = 48 + n % 10 := by
        set k := n % 10 with hk
        interval_cases k <;> rfl
      have hdivfuel : n / 10 < fuel := by
        have hlt : n / 10 < n := Nat.div_lt_self (by omega) (by omega)
        omega
      have happ : parseNatL (natDigitsAux fuel (n / 10)
            ++ [Char.ofNat (48 + n % 10)])
          = parseNatL (natDigitsAux fuel (n / 10)) * 10
            + ((Char.ofNat (48 + n % 10)).toNat - 48) := by
        unfold parseNatL
        rw [List.foldl_append]
        rfl
      rw [hstep, happ, ih (n / 10) hdivfuel, hchar]
      omega

theorem parseNatL_natToString (n : Nat) :
    parseNatL (natToString n).data = n :=
  parseNatL_natDigitsAux (n + 1) n (by omega)

/-- C3 (corrected): the serial comparison at line 427 is Python STRING
comparison, not numeric comparison, so the claimed rule only holds when
the previous serial and the date-based candidate are digit strings of the
same length (as they are for files whose serial this program generated:
ten digits).  Under that restriction the new serial is the date-based
candidate when it is numerically greater than the previous serial and
previous+1 otherwise, and the serial strictly increases numerically.  The
counterexample theorem shows the divergence for a short previous serial:
numerically 99 is far below the candidate 2025101200, yet the code
compares as strings and writes serial 100. -/
theorem chooseSerial_numeric (S C : String)
    (hlen : S.data.length = C.data.length)
    (hS : S.data.all pyIsDigit = true) (hC : C.data.all pyIsDigit = true) :
    chooseSerial S C = (if parseNatL S.data < parseNatL C.data then C
      else natToString (parseNatL S.data + 1)) ∧
    parseNatL S.data < parseNatL (chooseSerial S C).data := by
  have hiff := pyListLtChar_digits S.data C.data hlen hS hC
  unfold chooseSerial pyStrGe pyStrLt
  by_cases hlt : pyListLtChar S.data C.data = true
  · rw [hlt]
    have hnum := hiff.mp hlt
    have hred : (if (!true : Bool) = true
        then natToString (parseNatL S.data + 1) else C) = C := by simp
    rw [hred]
    exact ⟨(if_pos hnum).symm, hnum⟩
  · have hfalse : pyListLtChar S.data C.data = false :=
      Bool.not_eq_true _ ▸ hlt
    rw [hfalse]
    have hnum : ¬ parseNatL S.data < parseNatL C.data := fun hh => hlt (hiff.mpr hh)
    have hred : (if (!false : Bool) = true
        then natToString (parseNatL S.data + 1) else C)
        = natToString (parseNatL S.data + 1) := by simp
    rw [hred]
    refine ⟨(if_neg hnum).symm, ?_⟩
    rw [parseNatL_natToString]
    omega

/-- Witness: previous serial 2025101200 against the same-day candidate. -/
theorem chooseSerial_numeric_witness :
    ("2025101200" : String).data.length = ("2025101299" : String).data.length ∧
    ("2025101200" : String).data.all pyIsDigit = true ∧
    ("2025101299" : String).data.all pyIsDigit = true ∧
    (chooseSerial "2025101200" "2025101299"
        = (if parseNatL ("2025101200" : String).data
              < parseNatL ("2025101299" : String).data then "2025101299"
           else natToString (parseNatL ("2025101200" : String).data + 1)) ∧
     parseNatL ("2025101200" : String).data
       < parseNatL (chooseSerial "2025101200" "2025101299").data) :=
  ⟨by decide, by decide, by decide,
   chooseSerial_numeric "2025101200" "2025101299" (by decide) (by decide)
     (by decide)⟩

/-- C3 counterexample: with a previous serial `99` on 2025-10-12 the code
writes serial `100`, not the numerically larger date-based candidate
`2025101200` that the claim requires. -/
theorem write_nsd_zone_serial_cex :
    write_nsd_zone "a.b" "a.b" [] none (some "99 ; serial number")
        (PyDateTime.mk 2025 10 12 0 0 0) 0 false
      = Except.ok (true, some (pyReplace (renderZoneText "a.b" "a.b" [])
          "__SERIAL__" "100")) ∧
    dateSerial (PyDateTime.mk 2025 10 12 0 0 0) = "2025101200" ∧
    parseNatL ("99" : String).data < parseNatL ("2025101200" : String).data ∧
    ("100" : String) ≠ "2025101200" :=
  ⟨rfl, rfl, by decide, by decide⟩

/-- C1 (corrected): idempotence of publication holds only under a
round-trip condition on the on-disk file: stripping the serial token that
the search of line 411 finds (replacing EVERY occurrence of the matched
text, line 416) must reproduce the canonical placeholder rendering.  Under
that condition, with the signed artifact parsing to timestamps whose
string-minimum is a valid date-time 3 or more days in the future, a call
returns false and writes nothing, so the zone file is byte-identical
before and after.  The condition holds for the files this program writes
from ordinary records, but the counterexample theorem shows it fails for a
record value containing the serial placeholder, because the serial
substitution of line 430 also replaces that occurrence: the second
invocation then rewrites and bumps the serial, so the claim as stated is
false. -/
theorem write_nsd_zone_unchanged (domain primary : String)
    (records : List DnsRecord) (sc file : String)
    (now : PyDateTime) (nowUsec : Nat) (s1 g0 : String)
    (t : String) (ts : List String)
    (hfind : findSerial file = some (s1, g0))
    (hround : pyReplace file g0 "__SERIAL__     ; serial number"
      = renderZoneText domain primary records)
    (hsig : rrsigFindall sc = t :: ts)
    (hval : validTs (pyMinStr t ts) = true)
    (hfar : ¬ (epochSec (parseTs (pyMinStr t ts)) * 1000000 <
      epochSec now * 1000000 + (nowUsec : Int) + 259200000000)) :
    write_nsd_zone domain primary records (some sc) (some file) now nowUsec
      false = Except.ok (false, none) := by
  have hfb : (match rrsigFindall sc with
      | [] => Except.ok true
      | t :: ts =>
        if validTs (pyMinStr t ts) then
          Except.ok (decide (epochSec (parseTs (pyMinStr t ts)) * 1000000 <
            epochSec now * 1000000 + (nowUsec : Int) + 259200000000))
        else Except.error "time data does not match format")
      = Except.ok false := by
    simp [hsig, hval, decide_eq_false hfar]
  simp only [write_nsd_zone]
  rw [hfb]
  have hbeq : (renderZoneText domain primary records
      == pyReplace file g0 "__SERIAL__     ; serial number") = true := by
    rw [hround]
    exact beq_self_eq_true _
  simp [hfind, hbeq]

/-- C1 counterexample: an A record whose value is the serial placeholder.
The first call (no previous zone file, far-future signed artifact) writes
the file; the second call, with that very file on disk and the same
records, env, `force=false`, and the same healthy signed artifact, returns
true and writes a DIFFERENT file (serial and record bumped), violating the
claimed idempotence. -/
theorem write_nsd_zone_idem_cex :
    write_nsd_zone "a.b" "a.b" [⟨none, "A", "__SERIAL__", none⟩]
        (some " RRSIG SOA 8 2 1 20270101000000") none
        (PyDateTime.mk 2025 10 12 0 0 0) 0 false
      = Except.ok (true, some (pyReplace (renderZoneText "a.b" "a.b"
          [⟨none, "A", "__SERIAL__", none⟩]) "__SERIAL__" "2025101200")) ∧
    write_nsd_zone "a.b" "a.b" [⟨none, "A", "__SERIAL__", none⟩]
        (some " RRSIG SOA 8 2 1 20270101000000")
        (some (pyReplace (renderZoneText "a.b" "a.b"
          [⟨none, "A", "__SERIAL__", none⟩]) "__SERIAL__" "2025101200"))
        (PyDateTime.mk 2025 10 12 0 0 0) 0 false
      = Except.ok (true, some (pyReplace (renderZoneText "a.b" "a.b"
          [⟨none, "A", "__SERIAL__", none⟩]) "__SERIAL__" "2025101201")) ∧
    rrsigFindall " RRSIG SOA 8 2 1 20270101000000" = ["20270101000000"] ∧
    validTs "20270101000000" = true ∧
    ¬ (epochSec (parseTs "20270101000000") * 1000000 <
        epochSec (PyDateTime.mk 2025 10 12 0 0 0) * 1000000 + ((0 : Nat) : Int)
          + 259200000000) ∧
    pyReplace (renderZoneText "a.b" "a.b" [⟨none, "A", "__SERIAL__", none⟩])
        "__SERIAL__" "2025101201"
      ≠ pyReplace (renderZoneText "a.b" "a.b" [⟨none, "A", "__SERIAL__", none⟩])
        "__SERIAL__" "2025101200" :=
  ⟨rfl, rfl, rfl, rfl, by decide, by decide⟩

/-- Witness for the amended idempotence theorem: an ordinary A record, the
file written by a previous run on disk, a healthy signed artifact. -/
theorem write_nsd_zone_unchanged_witness :
    findSerial (pyReplace (renderZoneText "a.b" "a.b"
        [⟨some "www", "A", "1.2.3.4", none⟩]) "__SERIAL__" "2025101200")
      = some ("2025101200", "2025101200     ; serial number") ∧
    pyReplace (pyReplace (renderZoneText "a.b" "a.b"
        [⟨some "www", "A", "1.2.3.4", none⟩]) "__SERIAL__" "2025101200")
        "2025101200     ; serial number" "__SERIAL__     ; serial number"
      = renderZoneText "a.b" "a.b" [⟨some "www", "A", "1.2.3.4", none⟩] ∧
    rrsigFindall " RRSIG SOA 8 2 1 20270101000000" = "20270101000000" :: [] ∧
    validTs (pyMinStr "20270101000000" []) = true ∧
    ¬ (epochSec (parseTs (pyMinStr "20270101000000" [])) * 1000000 <
        epochSec (PyDateTime.mk 2025 10 12 0 0 0) * 1000000 + ((0 : Nat) : Int)
          + 259200000000) ∧
    write_nsd_zone "a.b" "a.b" [⟨some "www", "A", "1.2.3.4", none⟩]
        (some " RRSIG SOA 8 2 1 20270101000000")
        (some (pyReplace (renderZoneText "a.b" "a.b"
          [⟨some "www", "A", "1.2.3.4", none⟩]) "__SERIAL__" "2025101200"))
        (PyDateTime.mk 2025 10 12 0 0 0) 0 false
      = Except.ok (false, none) :=
  ⟨rfl, rfl, rfl, rfl, by decide,
   write_nsd_zone_unchanged "a.b" "a.b" [⟨some "www", "A", "1.2.3.4", none⟩]
     " RRSIG SOA 8 2 1 20270101000000"
     (pyReplace (renderZoneText "a.b" "a.b"
       [⟨some "www", "A", "1.2.3.4", none⟩]) "__SERIAL__" "2025101200")
     (PyDateTime.mk 2025 10 12 0 0 0) 0 "2025101200"
     "2025101200     ; serial number" "20270101000000" []
     rfl rfl rfl rfl (by decide)⟩
